import Mathlib

/-!
Shallow embedding of the normalization and aggregation pipeline of
`weather_demo_app/twc.py` (Payload Normalizer, Local-Calendar Window
Resolver, Daily Aggregator, Ten-Day Bucketizer, Sales/Quantity Column
Heuristic), together with proofs settling the specification claims.

Modelling conventions:
- a pandas `DataFrame` is a `Table`: an ordered list of column names plus a
  list of rows, each row an association list from column name to `Val`;
- tz-aware timestamps are UTC epoch seconds (`Int`); `NaT` is `none`;
- `datetime.date` objects are `Date` triples;
- float cells are exact rationals, `NaN` is `Val.nan`; pandas `round(1)`
  is modelled as exact half-to-even rounding of the rational;
- a `zoneinfo.ZoneInfo` value is a name plus two offset functions: the UTC
  offset determined by a UTC instant (used by `tz_convert`) and the UTC
  offset determined by a naive wall-clock instant (used when a naive
  datetime is localized, with pandas/zoneinfo fold=0 disambiguation);
- `errors="coerce"` timestamp parsing is modelled for the ISO-8601 form
  `YYYY-MM-DDTHH:MM:SSZ`; every other string coerces to `NaT`.
-/

/-! ## Calendar arithmetic (embedding of `datetime` / `calendar`) -/

structure Date where
  year : Int
  month : Int
  day : Int
deriving DecidableEq, Repr

/-- Gregorian leap year, as `calendar.isleap`. -/
def isLeap (y : Int) : Bool := (y % 4 == 0 && y % 100 != 0) || (y % 400 == 0)

/-- `calendar.monthrange(year, month)[1]`: number of days in the month. -/
def monthLength (y m : Int) : Int :=
  if m = 2 then (if isLeap y then 29 else 28)
  else if m = 4 ∨ m = 6 ∨ m = 9 ∨ m = 11 then 30 else 31

/-- Days from 1970-01-01 to the given civil date (proleptic Gregorian);
the standard days-from-civil computation.  Lean `Int` division is floor
division, matching Python `//`. -/
def daysFromCivil (y m d : Int) : Int :=
  let y1 := if m ≤ 2 then y - 1 else y
  let era := y1 / 400
  let yoe := y1 - era * 400
  let mp := (m + 9) % 12
  let doy := (153 * mp + 2) / 5 + d - 1
  let doe := yoe * 365 + yoe / 4 - yoe / 100 + doy
  era * 146097 + doe - 719468

/-- Civil date of a day count from 1970-01-01; inverse of `daysFromCivil`. -/
def civilFromDays (z0 : Int) : Date :=
  let z := z0 + 719468
  let era := z / 146097
  let doe := z - era * 146097
  let yoe := (doe - doe / 1460 + doe / 36524 - doe / 146096) / 365
  let doy := doe - (365 * yoe + yoe / 4 - yoe / 100)
  let mp := (5 * doy + 2) / 153
  let dd := doy - (153 * mp + 2) / 5 + 1
  let mm := mp + (if mp < 10 then 3 else -9)
  ⟨yoe + era * 400 + (if mm ≤ 2 then 1 else 0), mm, dd⟩

/-- Naive wall-clock instant (no zone), in seconds since the epoch wall. -/
def wallEpoch (y m d hh mi ss : Int) : Int :=
  daysFromCivil y m d * 86400 + hh * 3600 + mi * 60 + ss

/-- Embedding of `zoneinfo.ZoneInfo`: the zone name together with the UTC
offset as a function of a UTC instant (direction used by `tz_convert` /
`astimezone`) and as a function of a naive wall-clock instant (direction
used when a wall-clock datetime is given `tzinfo=tz`). -/
structure ZoneInfo where
  name : String
  offsetAtUtc : Int → Int
  offsetAtWall : Int → Int

/-- `ZoneInfo("Asia/Tokyo")`: fixed offset UTC+9, no DST (true for every
instant since 1951, which covers all datetimes this program handles). -/
def tokyoZone : ZoneInfo :=
  { name := "Asia/Tokyo", offsetAtUtc := fun _ => 32400, offsetAtWall := fun _ => 32400 }

/-- ISO-8601 digit. -/
def digitVal (c : Char) : Option Nat :=
  if 48 ≤ c.toNat ∧ c.toNat ≤ 57 then some (c.toNat - 48) else none

def num2 (a b : Char) : Option Nat := do
  let x ← digitVal a
  let y ← digitVal b
  pure (10 * x + y)

def num4 (a b c d : Char) : Option Nat := do
  let x ← num2 a b
  let y ← num2 c d
  pure (100 * x + y)

/-- `pd.to_datetime(_, utc=True, errors="coerce")` on a string cell,
modelled for the exact wire form `YYYY-MM-DDTHH:MM:SSZ` produced and
consumed by this program; any other string coerces to `NaT` (`none`). -/
def parseIsoZ (s : String) : Option Int :=
  match s.data with
  | [y1, y2, y3, y4, '-', m1, m2, '-', d1, d2, 'T',
     h1, h2, ':', i1, i2, ':', s1, s2, 'Z'] => do
      let y ← num4 y1 y2 y3 y4
      let mo ← num2 m1 m2
      let dd ← num2 d1 d2
      let hh ← num2 h1 h2
      let mi ← num2 i1 i2
      let ss ← num2 s1 s2
      pure (wallEpoch y mo dd hh mi ss)
  | _ => none

/-! ## Values, rows and tables -/

/-- One decoded JSON value (the payload shapes the Payload Normalizer
accepts). -/
inductive Json where
  | obj (kvs : List (String × Json))
  | arr (xs : List Json)
  | num (q : ℚ)
  | str (s : String)
  | null

theorem pairFstEq {α β : Type} {k1 k2 : α} {v1 v2 : β} (h : (k1, v1) = (k2, v2)) : k1 = k2 :=
  congrArg Prod.fst h

theorem pairSndEq {α β : Type} {k1 k2 : α} {v1 v2 : β} (h : (k1, v1) = (k2, v2)) : v1 = v2 :=
  congrArg Prod.snd h

mutual

def jsonDecEq : (a b : Json) → Decidable (a = b)
  | .obj x, .obj y =>
    match kvsDecEq x y with
    | isTrue h => isTrue (by rw [h])
    | isFalse h => isFalse (fun he => h (Json.obj.inj he))
  | .arr x, .arr y =>
    match arrDecEq x y with
    | isTrue h => isTrue (by rw [h])
    | isFalse h => isFalse (fun he => h (Json.arr.inj he))
  | .num x, .num y =>
    if h : x = y then isTrue (by rw [h]) else isFalse (fun he => h (Json.num.inj he))
  | .str x, .str y =>
    if h : x = y then isTrue (by rw [h]) else isFalse (fun he => h (Json.str.inj he))
  | .null, .null => isTrue rfl
  | .obj _, .arr _ => isFalse (fun h => Json.noConfusion h)
  | .obj _, .num _ => isFalse (fun h => Json.noConfusion h)
  | .obj _, .str _ => isFalse (fun h => Json.noConfusion h)
  | .obj _, .null => isFalse (fun h => Json.noConfusion h)
  | .arr _, .obj _ => isFalse (fun h => Json.noConfusion h)
  | .arr _, .num _ => isFalse (fun h => Json.noConfusion h)
  | .arr _, .str _ => isFalse (fun h => Json.noConfusion h)
  | .arr _, .null => isFalse (fun h => Json.noConfusion h)
  | .num _, .obj _ => isFalse (fun h => Json.noConfusion h)
  | .num _, .arr _ => isFalse (fun h => Json.noConfusion h)
  | .num _, .str _ => isFalse (fun h => Json.noConfusion h)
  | .num _, .null => isFalse (fun h => Json.noConfusion h)
  | .str _, .obj _ => isFalse (fun h => Json.noConfusion h)
  | .str _, .arr _ => isFalse (fun h => Json.noConfusion h)
  | .str _, .num _ => isFalse (fun h => Json.noConfusion h)
  | .str _, .null => isFalse (fun h => Json.noConfusion h)
  | .null, .obj _ => isFalse (fun h => Json.noConfusion h)
  | .null, .arr _ => isFalse (fun h => Json.noConfusion h)
  | .null, .num _ => isFalse (fun h => Json.noConfusion h)
  | .null, .str _ => isFalse (fun h => Json.noConfusion h)

def kvsDecEq : (a b : List (String × Json)) → Decidable (a = b)
  | [], [] => isTrue rfl
  | [], _ :: _ => isFalse (fun h => List.noConfusion h)
  | _ :: _, [] => isFalse (fun h => List.noConfusion h)
  | (k1, v1) :: t1, (k2, v2) :: t2 =>
    if hk : k1 = k2 then
      match jsonDecEq v1 v2 with
      | isTrue hv =>
        match kvsDecEq t1 t2 with
        | isTrue ht => isTrue (by rw [hk, hv, ht])
        | isFalse ht => isFalse (fun h => ht (List.cons.inj h).2)
      | isFalse hv => isFalse (fun h => hv (pairSndEq (List.cons.inj h).1))
    else isFalse (fun h => hk (pairFstEq (List.cons.inj h).1))

def arrDecEq : (a b : List Json) → Decidable (a = b)
  | [], [] => isTrue rfl
  | [], _ :: _ => isFalse (fun h => List.noConfusion h)
  | _ :: _, [] => isFalse (fun h => List.noConfusion h)
  | x :: t1, y :: t2 =>
    match jsonDecEq x y with
    | isTrue hv =>
      match arrDecEq t1 t2 with
      | isTrue ht => isTrue (by rw [hv, ht])
      | isFalse ht => isFalse (fun h => ht (List.cons.inj h).2)
    | isFalse hv => isFalse (fun h => hv (List.cons.inj h).1)

end

instance : DecidableEq Json := jsonDecEq

/-- One cell of a table.  `vtime none` is `NaT`; `nan` is a missing
float/object; `jv` keeps a nested non-scalar JSON value as an opaque
object cell. -/
inductive Val where
  | num (q : ℚ)
  | str (s : String)
  | nan
  | vtime (t : Option Int)
  | vdate (d : Date)
  | jv (j : Json)
deriving DecidableEq

abbrev Row := List (String × Val)

/-- First cell stored under column `c`, if any. -/
def rowGet (r : Row) (c : String) : Option Val :=
  (r.find? (fun p => p.1 == c)).map Prod.snd

/-- Cell under column `c`, with pandas missing-cell default `NaN`. -/
def rowGetD (r : Row) (c : String) : Val := (rowGet r c).getD Val.nan

/-- Column assignment on one row: overwrite every cell stored under `c`,
or append the new cell when the key is absent. -/
def rowSet (r : Row) (c : String) (v : Val) : Row :=
  if r.any (fun p => p.1 == c) then r.map (fun p => if p.1 = c then (c, v) else p)
  else r ++ [(c, v)]

structure Table where
  cols : List String
  rows : List Row
deriving DecidableEq

/-- `df[c]` as a list of cells, aligned with `rows`. -/
def colVals (t : Table) (c : String) : List Val := t.rows.map (fun r => rowGetD r c)

/-- `df[c] = series` column assignment (series aligned with the rows). -/
def setColVals (t : Table) (c : String) (vs : List Val) : Table :=
  { cols := if c ∈ t.cols then t.cols else t.cols ++ [c],
    rows := List.zipWith (fun r v => rowSet r c v) t.rows vs }

/-- `df.empty`. -/
def emptyTable (t : Table) : Bool := t.rows.isEmpty || t.cols.isEmpty

/-! ## Sorting and aggregation helpers -/

def insertSortedBy {α : Type} (le : α → α → Bool) (a : α) : List α → List α
  | [] => [a]
  | b :: t => if le a b then a :: b :: t else b :: insertSortedBy le a t

/-- Insertion sort (stable); models the deterministic sorts pandas applies
to group keys and to `sort_values` output on distinct keys. -/
def sortByB {α : Type} (le : α → α → Bool) (l : List α) : List α :=
  l.foldr (insertSortedBy le) []

/-- Code-point comparison of char lists: Python string `<=`. -/
def charsLE : List Char → List Char → Bool
  | [], _ => true
  | _ :: _, [] => false
  | a :: as, b :: bs =>
    if a.toNat < b.toNat then true
    else if b.toNat < a.toNat then false
    else charsLE as bs

/-- Python string comparison (lexicographic by code point). -/
def strLEb (a b : String) : Bool := charsLE a.data b.data

/-- Numeric cells of a column slice; pandas aggregations skip `NaN`. -/
def numsOf (vs : List Val) : List ℚ :=
  vs.filterMap (fun v => match v with | .num q => some q | _ => none)

/-- Pandas `mean` over a group (NaN-skipping; all-NaN mean is NaN). -/
def nanMean (vs : List Val) : Val :=
  let ns := numsOf vs
  if ns.isEmpty then .nan else .num (ns.sum / ns.length)

/-- Pandas `max` over a group (NaN-skipping; all-NaN max is NaN). -/
def nanMax (vs : List Val) : Val :=
  match numsOf vs with
  | [] => .nan
  | a :: t => .num (t.foldl max a)

/-- Pandas `sum` over a group (NaN-skipping; all-NaN and empty sums are 0). -/
def nanSum (vs : List Val) : Val :=
  .num (numsOf vs).sum

/-- Round half to even to an integer (numpy rounding). -/
def roundHalfEven (q : ℚ) : Int :=
  let f := ⌊q⌋
  if q - f < 1/2 then f
  else if (1 : ℚ)/2 < q - f then f + 1
  else if f % 2 = 0 then f else f + 1

/-- `Series.round(1)` on one rational. -/
def round1 (q : ℚ) : ℚ := (roundHalfEven (q * 10) : ℚ) / 10

def round1Val : Val → Val
  | .num q => .num (round1 q)
  | v => v

/-- `out[c] = out[c].round(1)` (NaN stays NaN, column untouched if absent). -/
def roundCol (t : Table) (c : String) : Table :=
  if c ∈ t.cols then
    { cols := t.cols, rows := t.rows.map (fun r => rowSet r c (round1Val (rowGetD r c))) }
  else t

/-! ## Payload Normalizer (`TwcClient.to_dataframe`) -/

/-- Scalar JSON leaf to cell; nested objects/arrays stay as object cells. -/
def jsonToVal : Json → Val
  | .num q => .num q
  | .str s => .str s
  | .null => .nan
  | j => .jv j

def jsonLookup (kvs : List (String × Json)) (k : String) : Option Json :=
  (kvs.find? (fun p => p.1 == k)).map Prod.snd

def arrLen : Json → Nat
  | .arr xs => xs.length
  | _ => 0

def arrGet : Json → Nat → Json
  | .arr xs, i => xs.getD i Json.null
  | _, _ => Json.null

/-- Keys of the payload whose value is a list (`list_keys`). -/
def listKeys (kvs : List (String × Json)) : List String :=
  kvs.filterMap (fun p => match p.2 with | .arr _ => some p.1 | _ => none)

/-- `TwcClient._from_series_dict`: a mapping whose list-valued entries all
have the same length `n` becomes an `n`-row table, row `i` taking the
`i`-th element of every list-valued key. -/
def fromSeriesDict (kvs : List (String × Json)) : Option Table :=
  let lk := listKeys kvs
  if lk.isEmpty then none
  else
    let lenOf := fun k => arrLen ((jsonLookup kvs k).getD Json.null)
    let n := (lk.map lenOf).foldl max 0
    if lk.all (fun k => lenOf k == n) then
      some { cols := lk,
             rows := (List.range n).map (fun i =>
               lk.map (fun k => (k, jsonToVal (arrGet ((jsonLookup kvs k).getD Json.null) i)))) }
    else none

/-- One record of `pd.json_normalize(data, max_level=1)`: mapping fields
whose value is itself a mapping are flattened one level into dotted
column names. -/
def normalizeRecord (kvs : List (String × Json)) : Row :=
  kvs.flatMap (fun p =>
    match p.2 with
    | .obj inner => inner.map (fun q => (p.1 ++ "." ++ q.1, jsonToVal q.2))
    | v => [(p.1, jsonToVal v)])

/-- Column order of appearance across records (first seen first). -/
def seenCols (rows : List Row) : List String :=
  (rows.flatMap (fun r => r.map Prod.fst)).foldl
    (fun acc c => if c ∈ acc then acc else acc ++ [c]) []

/-- `pd.json_normalize` over the record list; a non-mapping record raises. -/
def jsonNormalize (data : List Json) : Except String Table :=
  match data.mapM (fun j => match j with | .obj kvs => some (normalizeRecord kvs) | _ => none) with
  | some rows => .ok { cols := seenCols rows, rows := rows }
  | none => .error "json_normalize requires mapping records"

def timeCandidates : List String :=
  ["validTimeLocal", "validTimeUtc", "fcstValidLocal", "fcstValidUtc", "time", "validTime"]

def containerKeys : List String := ["data", "observations", "series", "result", "results"]

/-- `pd.to_datetime(cell, errors="coerce", utc=True)` on one raw cell. -/
def cellToUtc : Val → Option Int
  | .vtime t => t
  | .str s => parseIsoZ s
  | _ => none

/-- `ts.dt.tz_convert("Asia/Tokyo").dt.date` on one resolved instant:
the Asia/Tokyo (UTC+9) calendar date; `NaT` stays missing. -/
def tokyoDateVal (ot : Option Int) : Val :=
  match ot with
  | some u => .vdate (civilFromDays ((u + 32400) / 86400))
  | none => .nan

/-- The instants of an already-datetime-typed column; `none` when the
column is not datetime-typed (the `.dt` accessor would raise). -/
def columnTimes (t : Table) (c : String) : Option (List (Option Int)) :=
  if t.rows.all (fun r => match rowGetD r c with | .vtime _ => true | _ => false) then
    some (t.rows.map (fun r => match rowGetD r c with | .vtime ot => ot | _ => none))
  else none

/-- Timestamp resolution and Asia/Tokyo date/datetime derivation at the
end of `to_dataframe` (lines 136-142 of twc.py). -/
def resolveTimeCols (df : Table) : Except String Table :=
  let df1 :=
    match timeCandidates.find? (fun c => c ∈ df.cols) with
    | some c => setColVals df "timestamp" ((colVals df c).map (fun v => Val.vtime (cellToUtc v)))
    | none => df
  if "timestamp" ∈ df1.cols then
    match columnTimes df1 "timestamp" with
    | some ts =>
      let df2 := setColVals df1 "date" (ts.map tokyoDateVal)
      .ok (setColVals df2 "datetime_jst" (ts.map Val.vtime))
    | none => .error "dt accessor requires datetime values"
  else .ok df1

/-- `TwcClient.to_dataframe`: columnar payloads via `_from_series_dict`,
otherwise `json_normalize` of the record list (a known container key, the
payload itself as a list, or the single mapping as one record); then
timestamp/date treatment. -/
def to_dataframe (resp : Json) : Except String Table :=
  let base : Except String Table :=
    match resp with
    | .obj kvs =>
      match fromSeriesDict kvs with
      | some t => .ok t
      | none =>
        match containerKeys.findSome? (fun k =>
          match jsonLookup kvs k with | some (.arr xs) => some xs | _ => none) with
        | some xs => jsonNormalize xs
        | none => jsonNormalize [resp]
    | .arr xs => jsonNormalize xs
    | other => jsonNormalize [other]
  match base with
  | .ok df => resolveTimeCols df
  | .error e => .error e

/-! ## Local-Calendar Window Resolver -/

/-- `month_bounds_local(year, month, tz)`: the UTC instants of the local
wall-clock instants `(year, month, 1, 00:00:00)` and
`(year, month, last_day, 23:59:59)`.  The source serializes both to
Z-suffixed ISO strings; the claims concern the instants, so the pair of
epoch values is returned. -/
def month_bounds_local (year month : Int) (tz : ZoneInfo) : Int × Int :=
  let lastDay := monthLength year month
  let firstWall := wallEpoch year month 1 0 0 0
  let lastWall := wallEpoch year month lastDay 23 59 59
  (firstWall - tz.offsetAtWall firstWall, lastWall - tz.offsetAtWall lastWall)

/-- `pd.Timestamp(year=y, month=m, day=1, tz=tz)` as a UTC instant. -/
def monthStartUtc (year month : Int) (tz : ZoneInfo) : Int :=
  let w := wallEpoch year month 1 0 0 0
  w - tz.offsetAtWall w

/-- The first instant of the following month (`next_start` in the source). -/
def nextMonthStartUtc (year month : Int) (tz : ZoneInfo) : Int :=
  if month = 12 then monthStartUtc (year + 1) 1 tz else monthStartUtc year (month + 1) tz

/-- `ts_local.dt.date` for one kept instant: the calendar date of the
instant converted to `tz`. -/
def localDateVal (tz : ZoneInfo) (ot : Option Int) : Val :=
  match ot with
  | some u => .vdate (civilFromDays ((u + tz.offsetAtUtc u) / 86400))
  | none => .nan

/-- The authoritative instant series of `clamp_to_month_local`
(lines 192-203 of twc.py): `timestamp` re-coerced to UTC, else
`datetime_jst` converted back, else the first raw candidate column,
else no series (the frame is returned unfiltered). -/
def clampSeries (df : Table) : Option (List (Option Int)) :=
  if "timestamp" ∈ df.cols then some ((colVals df "timestamp").map cellToUtc)
  else if "datetime_jst" ∈ df.cols then
    some ((colVals df "datetime_jst").map (fun v => match v with | .vtime t => t | _ => none))
  else
    match timeCandidates.find? (fun c => c ∈ df.cols) with
    | some c => some ((colVals df c).map cellToUtc)
    | none => none

/-- `l.loc[mask]` for a boolean mask aligned with `l`. -/
def maskFilter {α : Type} (l : List α) (mask : List Bool) : List α :=
  (l.zip mask).filterMap (fun p => if p.2 then some p.1 else none)

/-- `clamp_to_month_local(df, year, month, tz_str)`. -/
def clamp_to_month_local (df : Table) (year month : Int) (tz : ZoneInfo) : Table :=
  if emptyTable df then df
  else
    match clampSeries df with
    | none => df
    | some ts =>
      let start := monthStartUtc year month tz
      let nxt := nextMonthStartUtc year month tz
      let mask := ts.map (fun ot =>
        match ot with
        | some u => decide (start ≤ u) && decide (u < nxt)
        | none => false)
      let kept := maskFilter df.rows mask
      let tsKept := maskFilter ts mask
      let out1 := setColVals ⟨df.cols, kept⟩ "date" (tsKept.map (localDateVal tz))
      let out2 := setColVals out1 "datetime_local" (tsKept.map Val.vtime)
      if tz.name = "Asia/Tokyo" then setColVals out2 "datetime_jst" (tsKept.map Val.vtime)
      else out2

/-! ## Daily Aggregator (`daily_aggregates`) -/

inductive AggOp where
  | mean
  | amax
  | asum
deriving DecidableEq

def applyAgg : AggOp → List Val → Val
  | .mean, vs => nanMean vs
  | .amax, vs => nanMax vs
  | .asum, vs => nanSum vs

/-- Chronological order on date cells. -/
def dateLE (a b : Date) : Bool :=
  decide (a.year < b.year) ||
    (a.year == b.year &&
      (decide (a.month < b.month) || (a.month == b.month && decide (a.day ≤ b.day))))

def optIntLE : Option Int → Option Int → Bool
  | none, _ => true
  | some _, none => false
  | some u, some v => decide (u ≤ v)

def valRank : Val → Nat
  | .num _ => 0
  | .nan => 1
  | .str _ => 2
  | .vtime _ => 3
  | .vdate _ => 4
  | .jv _ => 5

/-- Total order used for the ascending sort pandas applies to group keys
(`groupby(..., sort=True)`).  Faithful on the homogeneous key columns this
program groups by (date cells, strings); mixed-type columns would raise in
pandas and are ordered here by an arbitrary constructor rank. -/
def valLE (a b : Val) : Bool :=
  match a, b with
  | .num p, .num q => decide (p ≤ q)
  | .str s1, .str s2 => strLEb s1 s2
  | .vtime t1, .vtime t2 => optIntLE t1 t2
  | .vdate d1, .vdate d2 => dateLE d1 d2
  | x, y => decide (valRank x ≤ valRank y)

/-- Missing group keys (`NaN`/`NaT`) are dropped by `groupby`. -/
def isMissingKey : Val → Bool
  | .nan => true
  | .vtime none => true
  | _ => false

/-- Distinct non-missing key values, ascending (`groupby` group keys).
`List.dedup` keeps the last copy of equal keys; the subsequent sort makes
the choice irrelevant (the keys are pairwise distinct). -/
def groupKeys (vs : List Val) : List Val :=
  sortByB valLE (vs.filter (fun v => !(isMissingKey v))).dedup

/-- `daily_aggregates(df)`, with the state of the INPUT frame after the
call as second component: the source assigns `df["date"] = ...` on its
argument (twc.py lines 242-243), which mutates the caller's frame.  The
first component is the returned frame, or the exception pandas raises
(`KeyError` when no `date` column exists for `groupby`, `TypeError` when
the aggregation mapping is empty). -/
def dailyAggregatesRun (df : Table) : Except String Table × Table :=
  if emptyTable df then (.ok df, df)
  else
    let tcol : Option String := if "temperature" ∈ df.cols then some "temperature" else none
    let hcol : Option String := if "relativeHumidity" ∈ df.cols then some "relativeHumidity" else none
    let pcol : Option (String × AggOp) :=
      if "precip24Hour" ∈ df.cols then some ("precip24Hour", .amax)
      else if "precip1Hour" ∈ df.cols then some ("precip1Hour", .asum)
      else none
    let step : Except String Table :=
      if "date" ∉ df.cols ∧ "timestamp" ∈ df.cols then
        match columnTimes df "timestamp" with
        | some ts => .ok (setColVals df "date" (ts.map tokyoDateVal))
        | none => .error "dt accessor requires datetime values"
      else .ok df
    match step with
    | .error e => (.error e, df)
    | .ok g =>
      let mapping : List (String × String × AggOp) :=
        (match tcol with | some c => [("temp", c, AggOp.mean)] | none => []) ++
        (match hcol with | some c => [("humidity", c, AggOp.mean)] | none => []) ++
        (match pcol with | some pc => [("precip", pc.1, pc.2)] | none => [])
      if "date" ∉ g.cols then (.error "KeyError: date", g)
      else if mapping.isEmpty then
        (.error "agg requires functions or named aggregation args", g)
      else
        let keys := groupKeys (colVals g "date")
        let outRows := keys.map (fun k =>
          ("date", k) :: mapping.map (fun mp =>
            (mp.1, applyAgg mp.2.2
              ((g.rows.filter (fun r => rowGetD r "date" == k)).map (fun r => rowGetD r mp.2.1)))))
        let out0 : Table := ⟨"date" :: mapping.map Prod.fst, outRows⟩
        (.ok (roundCol (roundCol out0 "temp") "humidity"), g)

def daily_aggregates (df : Table) : Except String Table := (dailyAggregatesRun df).1

/-! ## Ten-Day Bucketizer (`ten_day_buckets`) -/

/-- The `bucket` helper inside `ten_day_buckets`. -/
def bucketOfDay (d : Int) : String :=
  if d ≤ 10 then "1–10" else if d ≤ 20 then "11–20" else "21–末"

/-- `pd.to_datetime(cell).dt.day` for a daily-table date cell. -/
def dayOfVal : Val → Option Int
  | .vdate dd => some dd.day
  | _ => none

/-- Bucket of one date cell; for a missing date the day is `NaN`, both
Python comparisons `d <= 10` and `d <= 20` are false, and the helper
returns the last bucket. -/
def bucketVal (v : Val) : String :=
  match dayOfVal v with
  | some d => bucketOfDay d
  | none => "21–末"

def canonicalBuckets : List String := ["1–10", "11–20", "21–末"]

/-- Rank of a bucket label in the `CategoricalDtype` order. -/
def bucketRank (s : String) : Nat :=
  if s = "1–10" then 0 else if s = "11–20" then 1 else if s = "21–末" then 2 else 3

def bucketRankLE (a b : String) : Bool := decide (bucketRank a ≤ bucketRank b)

/-- `ten_day_buckets(daily_df)`. -/
def ten_day_buckets (daily_df : Table) : Table :=
  if emptyTable daily_df || "date" ∉ daily_df.cols then ⟨[], []⟩
  else
    let dates := colVals daily_df "date"
    let days : List Val := dates.map (fun v =>
      match dayOfVal v with | some d => .num d | none => .nan)
    let g0 := setColVals daily_df "day" days
    let buckets : List String := dates.map bucketVal
    let g := setColVals g0 "bucket" (buckets.map Val.str)
    let aggMap : List (String × AggOp) :=
      (if "temp" ∈ g.cols then [("temp", AggOp.mean)] else []) ++
      (if "humidity" ∈ g.cols then [("humidity", AggOp.mean)] else []) ++
      (if "precip" ∈ g.cols then [("precip", AggOp.asum)] else [])
    if aggMap.isEmpty then
      ⟨["bucket"], (sortByB strLEb buckets.dedup).map (fun b => [("bucket", Val.str b)])⟩
    else
      let keys := sortByB strLEb buckets.dedup
      let keys2 := sortByB bucketRankLE keys
      let outRows := keys2.map (fun b =>
        ("bucket", Val.str b) :: aggMap.map (fun mp =>
          (mp.1, applyAgg mp.2
            ((g.rows.filter (fun r => rowGetD r "bucket" == Val.str b)).map
              (fun r => rowGetD r mp.1)))))
      let out0 : Table := ⟨"bucket" :: aggMap.map Prod.fst, outRows⟩
      roundCol (roundCol out0 "temp") "humidity"

/-! ## Sales/Quantity Column Heuristic (`guess_sales_column`) -/

def excludeSet : List String :=
  ["date", "temp", "humidity", "precip", "temperature", "relativeHumidity",
   "precip1Hour", "precip24Hour"]

/-- A cell a numeric-dtype column may hold. -/
def isNumericCell : Val → Bool
  | .num _ => true
  | .nan => true
  | _ => false

/-- `pd.api.types.is_numeric_dtype(df[c])`. -/
def isNumericCol (t : Table) (c : String) : Bool := (colVals t c).all isNumericCell

/-- The ordered priority list of canonical quantity-column names. -/
def priorityNames : List String :=
  ["売れた個数", "売上個数", "販売個数", "販売数量", "売上数", "販売数",
   "個数", "数量",
   "units_sold", "qty_sold", "sold", "sales_qty", "sales", "出荷数"]

/-- `str(c).lower()` restricted to ASCII letters (the only cased
characters occurring in the names this program compares). -/
def lowerKey (s : String) : List Nat :=
  s.data.map (fun c => if 65 ≤ c.toNat ∧ c.toNat ≤ 90 then c.toNat + 32 else c.toNat)

/-- Python substring containment `tok in s`. -/
def strContainsTok (s tok : String) : Bool :=
  s.data.tails.any (fun suf => tok.data.isPrefixOf suf)

def sellTokens : List String := ["売", "販", "出荷"]

def qtyTokens : List String := ["数", "個", "量"]

/-- The token rule of step 2: the name contains a sell/ship token AND a
count/quantity token. -/
def tokenRuleMatch (c : String) : Bool :=
  sellTokens.any (fun k => strContainsTok c k) && qtyTokens.any (fun k => strContainsTok c k)

/-- Numeric columns outside the exclusion set, in original column order. -/
def numericCandidates (t : Table) : List String :=
  t.cols.filter (fun c => !(excludeSet.contains c) && isNumericCol t c)

/-- `guess_sales_column(df)`. -/
def guess_sales_column (df : Table) : Option String :=
  if emptyTable df then none
  else
    let numericCols := numericCandidates df
    if numericCols.isEmpty then none
    else
      match priorityNames.findSome? (fun name =>
        numericCols.find? (fun c => lowerKey c == lowerKey name)) with
      | some c => some c
      | none =>
        match numericCols.find? tokenRuleMatch with
        | some c => some c
        | none => numericCols.head?

/-! ## Toolkit lemmas about the table primitives -/

theorem zipWith_map_self {α β γ : Type} (f : α → β → γ) (g : α → β) (l : List α) :
    List.zipWith f l (l.map g) = l.map (fun x => f x (g x)) := by
  induction l with
  | nil => rfl
  | cons a t ih => simp [ih]

theorem zipWith_map_both {α β γ δ : Type} (f : β → γ → δ) (g1 : α → β) (g2 : α → γ)
    (l : List α) :
    List.zipWith f (l.map g1) (l.map g2) = l.map (fun x => f (g1 x) (g2 x)) := by
  induction l with
  | nil => rfl
  | cons a t ih => simp [ih]

theorem maskFilter_map_self {α : Type} (g : α → Bool) (l : List α) :
    maskFilter l (l.map g) = l.filter g := by
  induction l with
  | nil => rfl
  | cons a t ih =>
    simp only [maskFilter, List.map_cons, List.zip_cons_cons, List.filterMap_cons,
      List.filter_cons] at *
    cases hg : g a <;> simp [hg, ih]

theorem maskFilter_map_left {α β : Type} (f : α → β) (l : List α) (m : List Bool) :
    maskFilter (l.map f) m = (maskFilter l m).map f := by
  induction l generalizing m with
  | nil => simp [maskFilter]
  | cons a t ih =>
    cases m with
    | nil => simp [maskFilter]
    | cons b mt =>
      simp only [maskFilter, List.map_cons, List.zip_cons_cons, List.filterMap_cons] at *
      cases b <;> simp [ih]

theorem filter_map_eq_filterMap {α β : Type} (p : α → Bool) (q : α → β) (l : List α) :
    (l.filter p).map q = l.filterMap (fun x => if p x then some (q x) else none) := by
  induction l with
  | nil => rfl
  | cons a t ih =>
    simp only [List.filter_cons, List.filterMap_cons]
    cases hp : p a <;> simp [hp, ih]

theorem rowSet_update_pred (c c2 : String) (v : Val) :
    ((fun p : String × Val => p.1 == c2) ∘ fun p : String × Val =>
      if p.1 = c then (c, v) else p) = fun p : String × Val => p.1 == c2 := by
  funext p
  by_cases hp : p.1 = c
  · by_cases h2 : c2 = c
    · simp [hp, h2]
    · have hcc : (c == c2) = false := by
        simp only [beq_eq_false_iff_ne, ne_eq]
        exact fun hx => h2 hx.symm
      have hpc : (p.1 == c2) = false := by
        rw [hp]
        exact hcc
      simp [hp, hcc, hpc]
  · simp [hp]

theorem any_eq_false_find?_none (c : String) (r : Row)
    (ha : ¬ r.any (fun p => p.1 == c) = true) :
    List.find? (fun p => p.1 == c) r = none := by
  rw [List.find?_eq_none]
  intro p hp hb
  simp only [List.any_eq_true, not_exists] at ha
  exact ha p (by simp [hp, hb])

theorem rowGet_rowSet_same (r : Row) (c : String) (v : Val) :
    rowGet (rowSet r c v) c = some v := by
  unfold rowSet rowGet
  by_cases ha : r.any (fun p => p.1 == c) = true
  · simp only [ha, if_true, List.find?_map, rowSet_update_pred c c v]
    have hsome : (r.find? (fun p => p.1 == c)).isSome := by
      rw [List.find?_isSome]
      simpa [List.any_eq_true] using ha
    obtain ⟨p0, hp0⟩ := Option.isSome_iff_exists.mp hsome
    have hkey := List.find?_some hp0
    rw [hp0]
    simp only [Option.map_map, Option.map_some]
    simp [Function.comp, (by simpa using hkey : p0.1 = c)]
  · simp only [ha, if_false, Bool.false_eq_true, List.find?_append]
    rw [any_eq_false_find?_none c r ha]
    simp [List.find?]

theorem rowGetD_rowSet_same (r : Row) (c : String) (v : Val) :
    rowGetD (rowSet r c v) c = v := by
  simp [rowGetD, rowGet_rowSet_same]

theorem rowGet_rowSet_ne (r : Row) {c c2 : String} (v : Val) (h : c2 ≠ c) :
    rowGet (rowSet r c v) c2 = rowGet r c2 := by
  unfold rowSet rowGet
  by_cases ha : r.any (fun p => p.1 == c) = true
  · simp only [ha, if_true, List.find?_map, rowSet_update_pred c c2 v]
    cases hf : r.find? (fun p => p.1 == c2) with
    | none => simp
    | some p0 =>
      have hkey := List.find?_some hf
      have hp0c : ¬ p0.1 = c := by
        have hk2 : p0.1 = c2 := by simpa using hkey
        rw [hk2]
        exact h
      simp [Option.map_map, Function.comp, hp0c]
  · simp only [ha, if_false, Bool.false_eq_true, List.find?_append]
    have hone : List.find? (fun p => p.1 == c2) [(c, v)] = none := by
      have : (c == c2) = false := by
        simp only [beq_eq_false_iff_ne, ne_eq]
        exact fun hx => h hx.symm
      simp [List.find?, this]
    simp [hone]

theorem rowGetD_rowSet_ne (r : Row) {c c2 : String} (v : Val) (h : c2 ≠ c) :
    rowGetD (rowSet r c v) c2 = rowGetD r c2 := by
  simp [rowGetD, rowGet_rowSet_ne r v h]

theorem mem_rowSet_key_eq {r : Row} {c : String} {v : Val} {p : String × Val}
    (hp : p ∈ rowSet r c v) (hk : p.1 = c) : p = (c, v) := by
  unfold rowSet at hp
  by_cases ha : r.any (fun p => p.1 == c) = true
  · simp only [ha, if_true, List.mem_map] at hp
    obtain ⟨q, _, hq⟩ := hp
    by_cases hqc : q.1 = c
    · simp [hqc] at hq
      exact hq.symm
    · rw [if_neg hqc] at hq
      rw [hq] at hqc
      exact absurd hk hqc
  · simp only [ha, if_false, Bool.false_eq_true, List.mem_append, List.mem_singleton] at hp
    rcases hp with hp | hp
    · exfalso
      simp only [List.any_eq_true, not_exists] at ha
      exact ha p (by simp [hp, hk])
    · exact hp

theorem mem_rowSet_of_ne {r : Row} {c : String} {v : Val} {p : String × Val}
    (hp : p ∈ r) (hk : p.1 ≠ c) : p ∈ rowSet r c v := by
  unfold rowSet
  by_cases ha : r.any (fun p => p.1 == c) = true
  · simp only [ha, if_true, List.mem_map]
    exact ⟨p, hp, by rw [if_neg hk]⟩
  · simp [ha, hp]

theorem mem_of_mem_rowSet_ne {r : Row} {c : String} {v : Val} {p : String × Val}
    (hp : p ∈ rowSet r c v) (hk : p.1 ≠ c) : p ∈ r := by
  unfold rowSet at hp
  by_cases ha : r.any (fun p => p.1 == c) = true
  · simp only [ha, if_true, List.mem_map] at hp
    obtain ⟨q, hqm, hq⟩ := hp
    by_cases hqc : q.1 = c
    · rw [if_pos hqc] at hq
      rw [← hq] at hk
      exact absurd rfl hk
    · rw [if_neg hqc] at hq
      rwa [← hq]
  · simp only [ha, if_false, Bool.false_eq_true, List.mem_append, List.mem_singleton] at hp
    rcases hp with hp | hp
    · exact hp
    · rw [hp] at hk
      exact absurd rfl hk

theorem rowSet_any_key {r : Row} (c : String) (v : Val) :
    (rowSet r c v).any (fun p => p.1 == c) = true := by
  unfold rowSet
  by_cases ha : r.any (fun p => p.1 == c) = true
  · rw [if_pos ha]
    rw [List.any_eq_true] at ha ⊢
    obtain ⟨q, hqm, hq⟩ := ha
    have hqc : q.1 = c := by simpa using hq
    exact ⟨(c, v), List.mem_map.mpr ⟨q, hqm, by simp [hqc]⟩, by simp⟩
  · rw [if_neg ha]
    rw [List.any_eq_true]
    exact ⟨(c, v), by simp, by simp⟩

theorem rowSet_any_key_other {r : Row} {c2 : String} (c : String) (v : Val)
    (h : r.any (fun p => p.1 == c2) = true) (hne : c2 ≠ c) :
    (rowSet r c v).any (fun p => p.1 == c2) = true := by
  simp only [List.any_eq_true] at *
  obtain ⟨q, hqm, hq⟩ := h
  have hqc : q.1 ≠ c := by
    rw [(by simpa using hq : q.1 = c2)]
    exact hne
  exact ⟨q, mem_rowSet_of_ne hqm hqc, hq⟩

theorem rowSet_eq_self {r : Row} {c : String} {v : Val}
    (h1 : r.any (fun p => p.1 == c) = true)
    (h2 : ∀ p ∈ r, p.1 = c → p.2 = v) : rowSet r c v = r := by
  unfold rowSet
  simp only [h1, if_true]
  have : ∀ p ∈ r, (if p.1 = c then (c, v) else p) = p := by
    intro p hp
    by_cases hc : p.1 = c
    · rw [if_pos hc]
      have hv := h2 p hp hc
      cases p with
      | mk a b =>
        simp only at hc hv
        rw [hc, hv]
    · rw [if_neg hc]
  exact List.map_congr_left this |>.trans (List.map_id r)

theorem setColVals_cols_of_mem {t : Table} {c : String} (vs : List Val) (h : c ∈ t.cols) :
    (setColVals t c vs).cols = t.cols := by
  simp [setColVals, h]

theorem mem_setColVals_cols {t : Table} {c c2 : String} (vs : List Val) :
    c2 ∈ (setColVals t c vs).cols ↔ c2 ∈ t.cols ∨ c2 = c := by
  unfold setColVals
  by_cases h : c ∈ t.cols
  · simp only [h, if_true]
    constructor
    · exact Or.inl
    · rintro (h2 | h2)
      · exact h2
      · rwa [h2]
  · simp [h]

theorem colVals_eq_map (t : Table) (c : String) :
    colVals t c = t.rows.map (fun r => rowGetD r c) := rfl

theorem setColVals_rows_map (t : Table) (c : String) (g : Row → Val) :
    (setColVals t c (t.rows.map g)).rows = t.rows.map (fun r => rowSet r c (g r)) := by
  simp [setColVals, zipWith_map_self]

theorem colVals_setColVals_map_same (t : Table) (c : String) (g : Row → Val) :
    colVals (setColVals t c (t.rows.map g)) c = t.rows.map g := by
  rw [colVals_eq_map, setColVals_rows_map, List.map_map]
  exact List.map_congr_left (fun r _ => rowGetD_rowSet_same r c (g r))

theorem colVals_setColVals_map_ne (t : Table) {c c2 : String} (g : Row → Val) (h : c2 ≠ c) :
    colVals (setColVals t c (t.rows.map g)) c2 = colVals t c2 := by
  rw [colVals_eq_map, setColVals_rows_map, List.map_map, colVals_eq_map]
  exact List.map_congr_left (fun r _ => rowGetD_rowSet_ne r (g r) h)

theorem insertSortedBy_perm {α : Type} (le : α → α → Bool) (a : α) (l : List α) :
    List.Perm (insertSortedBy le a l) (a :: l) := by
  induction l with
  | nil => rfl
  | cons b t ih =>
    unfold insertSortedBy
    by_cases h : le a b = true
    · rw [if_pos h]
    · rw [if_neg h]
      exact (List.Perm.cons b ih).trans (List.Perm.swap a b t)

theorem sortByB_perm {α : Type} (le : α → α → Bool) (l : List α) :
    List.Perm (sortByB le l) l := by
  induction l with
  | nil => rfl
  | cons a t ih =>
    unfold sortByB at *
    exact (insertSortedBy_perm le a _).trans (List.Perm.cons a ih)

theorem mem_sortByB {α : Type} (le : α → α → Bool) (l : List α) (a : α) :
    a ∈ sortByB le l ↔ a ∈ l :=
  (sortByB_perm le l).mem_iff

/-- Boolean sortedness of adjacent elements. -/
def chainLEb {α : Type} (le : α → α → Bool) : List α → Bool
  | [] => true
  | [_] => true
  | a :: b :: t => le a b && chainLEb le (b :: t)

theorem chainLEb_insertSortedBy {α : Type} (le : α → α → Bool)
    (htot : ∀ a b, le a b = true ∨ le b a = true) (a : α) (l : List α)
    (hl : chainLEb le l = true) : chainLEb le (insertSortedBy le a l) = true := by
  induction l with
  | nil => rfl
  | cons b t ih =>
    unfold insertSortedBy
    by_cases h : le a b = true
    · rw [if_pos h]
      simp only [chainLEb, Bool.and_eq_true]
      exact ⟨h, hl⟩
    · rw [if_neg h]
      have hba : le b a = true := (htot a b).resolve_left h
      have htail : chainLEb le t = true := by
        cases t with
        | nil => rfl
        | cons x xs =>
          simp only [chainLEb, Bool.and_eq_true] at hl
          exact hl.2
      have hins := ih htail
      cases ht : t with
      | nil =>
        simp [chainLEb, insertSortedBy, hba]
      | cons x xs =>
        subst ht
        unfold insertSortedBy
        by_cases hax : le a x = true
        · rw [if_pos hax]
          simp only [chainLEb, Bool.and_eq_true]
          refine ⟨hba, hax, ?_⟩
          simp only [chainLEb, Bool.and_eq_true] at hl
          have := hl.2
          simpa [chainLEb] using this
        · rw [if_neg hax]
          simp only [chainLEb, Bool.and_eq_true] at hl ⊢
          refine ⟨hl.1, ?_⟩
          have := ih hl.2
          unfold insertSortedBy at this
          rw [if_neg hax] at this
          exact this

theorem chainLEb_sortByB {α : Type} (le : α → α → Bool)
    (htot : ∀ a b, le a b = true ∨ le b a = true) (l : List α) :
    chainLEb le (sortByB le l) = true := by
  induction l with
  | nil => rfl
  | cons a t ih =>
    unfold sortByB at *
    exact chainLEb_insertSortedBy le htot a _ ih

/-! ## Spec-side description of the clamping operation -/

/-- The authoritative instant of a row carrying a resolved `timestamp`. -/
def rowInstant (r : Row) : Option Int := cellToUtc (rowGetD r "timestamp")

/-- Whether a row passes the month window `[start, next_start)`. -/
def clampPass (start nxt : Int) (r : Row) : Bool :=
  match rowInstant r with
  | some u => decide (start ≤ u) && decide (u < nxt)
  | none => false

/-- The re-tagging the spec describes for a retained row: `date` is
recomputed from the local instant (overwriting any prior value) and a
local-datetime column is attached (mirrored to `datetime_jst` for the
Asia/Tokyo zone string). -/
def clampRetag (tz : ZoneInfo) (r : Row) (u : Int) : Row :=
  let r1 := rowSet r "date" (Val.vdate (civilFromDays ((u + tz.offsetAtUtc u) / 86400)))
  let r2 := rowSet r1 "datetime_local" (Val.vtime (some u))
  if tz.name = "Asia/Tokyo" then rowSet r2 "datetime_jst" (Val.vtime (some u)) else r2

/-- The rows claim C3 says clamping produces: exactly the rows whose
instant resolves to `u` with `monthStart ≤ u < nextMonthStart`
(half-open: the next month start itself is excluded), re-tagged;
rows with an unresolvable instant are dropped. -/
def clampSpecRows (df : Table) (year month : Int) (tz : ZoneInfo) : List Row :=
  df.rows.filterMap (fun r =>
    match rowInstant r with
    | some u =>
      if monthStartUtc year month tz ≤ u ∧ u < nextMonthStartUtc year month tz
      then some (clampRetag tz r u) else none
    | none => none)

theorem filterMap_congr_mem {α β : Type} {l : List α} {f g : α → Option β}
    (h : ∀ a ∈ l, f a = g a) : l.filterMap f = l.filterMap g := by
  induction l with
  | nil => rfl
  | cons a t ih =>
    simp only [List.filterMap_cons, h a (List.mem_cons_self a t)]
    rw [ih (fun x hx => h x (List.mem_cons_of_mem a hx))]

theorem clamp_retag_head (tz : ZoneInfo) (r : Row) (u : Int) :
    clampRetag tz r u =
      (if tz.name = "Asia/Tokyo" then
        rowSet (rowSet (rowSet r "date" (localDateVal tz (some u)))
          "datetime_local" (Val.vtime (some u))) "datetime_jst" (Val.vtime (some u))
      else
        rowSet (rowSet r "date" (localDateVal tz (some u)))
          "datetime_local" (Val.vtime (some u))) := rfl

theorem clamp_rows_eq (df : Table) (year month : Int) (tz : ZoneInfo)
    (hts : "timestamp" ∈ df.cols) :
    (clamp_to_month_local df year month tz).rows = clampSpecRows df year month tz := by
  have hcolsne : df.cols.isEmpty = false := by
    cases hc : df.cols with
    | nil => rw [hc] at hts; cases hts
    | cons a t => rfl
  by_cases hrows : df.rows.isEmpty = true
  · have hnil : df.rows = [] := List.isEmpty_iff.mp hrows
    unfold clamp_to_month_local
    rw [if_pos (by simp [emptyTable, hrows])]
    simp [clampSpecRows, hnil]
  · have hempty : emptyTable df = false := by simp [emptyTable, hrows, hcolsne]
    unfold clamp_to_month_local
    rw [if_neg (by simp [hempty])]
    have hser : clampSeries df = some ((colVals df "timestamp").map cellToUtc) := by
      unfold clampSeries
      rw [if_pos hts]
    rw [hser]
    unfold clampSpecRows
    dsimp only
    rw [show (colVals df "timestamp").map cellToUtc = df.rows.map rowInstant from by
      rw [colVals_eq_map, List.map_map]; rfl]
    rw [show List.map (fun ot =>
        match ot with
        | some u => decide (monthStartUtc year month tz ≤ u) &&
            decide (u < nextMonthStartUtc year month tz)
        | none => false) (df.rows.map rowInstant) =
        df.rows.map (clampPass (monthStartUtc year month tz) (nextMonthStartUtc year month tz))
      from by rw [List.map_map]; rfl]
    generalize monthStartUtc year month tz = start
    generalize nextMonthStartUtc year month tz = nxt
    rw [maskFilter_map_self, maskFilter_map_left, maskFilter_map_self]
    simp only [setColVals, List.map_map]
    rw [zipWith_map_self]
    by_cases htz : tz.name = "Asia/Tokyo"
    · rw [if_pos htz]
      dsimp only
      rw [zipWith_map_both, zipWith_map_both, filter_map_eq_filterMap]
      apply filterMap_congr_mem
      intro r _
      unfold clampPass
      cases hfr : rowInstant r with
      | none =>
        simp only [Function.comp_apply, hfr]
        simp
      | some u =>
        simp only [Function.comp_apply, hfr]
        by_cases hb : start ≤ u ∧ u < nxt
        · rw [if_pos (show (decide (start ≤ u) && decide (u < nxt)) = true by
            simp [hb.1, hb.2])]
          rw [if_pos hb, clamp_retag_head, if_pos htz]
        · rw [if_neg hb]
          rw [if_neg (show ¬ (decide (start ≤ u) && decide (u < nxt)) = true by
            simpa using hb)]
    · rw [if_neg htz]
      dsimp only
      rw [zipWith_map_both, filter_map_eq_filterMap]
      apply filterMap_congr_mem
      intro r _
      unfold clampPass
      cases hfr : rowInstant r with
      | none =>
        simp only [Function.comp_apply, hfr]
        simp
      | some u =>
        simp only [Function.comp_apply, hfr]
        by_cases hb : start ≤ u ∧ u < nxt
        · rw [if_pos (show (decide (start ≤ u) && decide (u < nxt)) = true by
            simp [hb.1, hb.2])]
          rw [if_pos hb, clamp_retag_head, if_neg htz]
        · rw [if_neg hb]
          rw [if_neg (show ¬ (decide (start ≤ u) && decide (u < nxt)) = true by
            simpa using hb)]

theorem table_eq_of {a b : Table} (h1 : a.cols = b.cols) (h2 : a.rows = b.rows) : a = b := by
  cases a
  cases b
  simp_all

theorem filterMap_eq_self_of {α : Type} {l : List α} {f : α → Option α}
    (h : ∀ x ∈ l, f x = some x) : l.filterMap f = l := by
  induction l with
  | nil => rfl
  | cons a t ih =>
    simp only [List.filterMap_cons, h a (List.mem_cons_self a t)]
    rw [ih (fun x hx => h x (List.mem_cons_of_mem a hx))]

theorem clampRetag_instant (tz : ZoneInfo) (r : Row) (u : Int) :
    rowInstant (clampRetag tz r u) = rowInstant r := by
  unfold clampRetag rowInstant
  by_cases htz : tz.name = "Asia/Tokyo"
  · rw [if_pos htz]
    rw [rowGetD_rowSet_ne _ _ (by decide : ("timestamp" : String) ≠ "datetime_jst"),
      rowGetD_rowSet_ne _ _ (by decide : ("timestamp" : String) ≠ "datetime_local"),
      rowGetD_rowSet_ne _ _ (by decide : ("timestamp" : String) ≠ "date")]
  · rw [if_neg htz]
    rw [rowGetD_rowSet_ne _ _ (by decide : ("timestamp" : String) ≠ "datetime_local"),
      rowGetD_rowSet_ne _ _ (by decide : ("timestamp" : String) ≠ "date")]

theorem clampRetag_idem (tz : ZoneInfo) (r : Row) (u : Int) :
    clampRetag tz (clampRetag tz r u) u = clampRetag tz r u := by
  have hdl : ("date" : String) ≠ "datetime_local" := by decide
  have hdj : ("date" : String) ≠ "datetime_jst" := by decide
  have hlj : ("datetime_local" : String) ≠ "datetime_jst" := by decide
  by_cases htz : tz.name = "Asia/Tokyo"
  · unfold clampRetag
    rw [if_pos htz, if_pos htz]
    set dv := Val.vdate (civilFromDays ((u + tz.offsetAtUtc u) / 86400)) with hdv
    set lv := Val.vtime (some u) with hlv
    set r1 := rowSet r "date" dv with hr1
    set r2 := rowSet r1 "datetime_local" lv with hr2
    set rr := rowSet r2 "datetime_jst" lv with hrr
    have hd : rowSet rr "date" dv = rr := by
      apply rowSet_eq_self
      · exact rowSet_any_key_other _ _
          (rowSet_any_key_other _ _ (rowSet_any_key _ _) hdl) hdj
      · intro p hp hk
        have hp2 : p ∈ r2 := mem_of_mem_rowSet_ne hp (by rw [hk]; exact hdj)
        have hp1 : p ∈ r1 := mem_of_mem_rowSet_ne hp2 (by rw [hk]; exact hdl)
        have := mem_rowSet_key_eq hp1 hk
        rw [this]
    rw [hd]
    have hl : rowSet rr "datetime_local" lv = rr := by
      apply rowSet_eq_self
      · exact rowSet_any_key_other _ _ (rowSet_any_key _ _) hlj
      · intro p hp hk
        have hp2 : p ∈ r2 := mem_of_mem_rowSet_ne hp (by rw [hk]; exact hlj)
        have := mem_rowSet_key_eq hp2 hk
        rw [this]
    rw [hl]
    apply rowSet_eq_self
    · exact rowSet_any_key _ _
    · intro p hp hk
      have := mem_rowSet_key_eq hp hk
      rw [this]
  · unfold clampRetag
    rw [if_neg htz, if_neg htz]
    set dv := Val.vdate (civilFromDays ((u + tz.offsetAtUtc u) / 86400)) with hdv
    set lv := Val.vtime (some u) with hlv
    set r1 := rowSet r "date" dv with hr1
    set r2 := rowSet r1 "datetime_local" lv with hr2
    have hd : rowSet r2 "date" dv = r2 := by
      apply rowSet_eq_self
      · exact rowSet_any_key_other _ _ (rowSet_any_key _ _) hdl
      · intro p hp hk
        have hp1 : p ∈ r1 := mem_of_mem_rowSet_ne hp (by rw [hk]; exact hdl)
        have := mem_rowSet_key_eq hp1 hk
        rw [this]
    rw [hd]
    apply rowSet_eq_self
    · exact rowSet_any_key _ _
    · intro p hp hk
      have := mem_rowSet_key_eq hp hk
      rw [this]

theorem clamp_cols_sup (df : Table) (year month : Int) (tz : ZoneInfo) {c : String}
    (hc : c ∈ df.cols) : c ∈ (clamp_to_month_local df year month tz).cols := by
  unfold clamp_to_month_local
  by_cases hempty : emptyTable df = true
  · rw [if_pos hempty]
    exact hc
  · rw [if_neg hempty]
    cases hser : clampSeries df with
    | none => exact hc
    | some ts =>
      dsimp only
      by_cases htz : tz.name = "Asia/Tokyo"
      · rw [if_pos htz]
        exact (mem_setColVals_cols _).mpr (Or.inl ((mem_setColVals_cols _).mpr
          (Or.inl ((mem_setColVals_cols _).mpr (Or.inl hc)))))
      · rw [if_neg htz]
        exact (mem_setColVals_cols _).mpr (Or.inl ((mem_setColVals_cols _).mpr (Or.inl hc)))

theorem clamp_cols_new (df : Table) (year month : Int) (tz : ZoneInfo)
    (hempty : emptyTable df = false) {ts : List (Option Int)}
    (hser : clampSeries df = some ts) :
    "date" ∈ (clamp_to_month_local df year month tz).cols ∧
    "datetime_local" ∈ (clamp_to_month_local df year month tz).cols ∧
    (tz.name = "Asia/Tokyo" → "datetime_jst" ∈ (clamp_to_month_local df year month tz).cols) := by
  unfold clamp_to_month_local
  rw [if_neg (by simp [hempty]), hser]
  dsimp only
  by_cases htz : tz.name = "Asia/Tokyo"
  · rw [if_pos htz]
    refine ⟨?_, ?_, fun _ => ?_⟩
    · exact (mem_setColVals_cols _).mpr (Or.inl ((mem_setColVals_cols _).mpr
        (Or.inl ((mem_setColVals_cols _).mpr (Or.inr rfl)))))
    · exact (mem_setColVals_cols _).mpr (Or.inl ((mem_setColVals_cols _).mpr (Or.inr rfl)))
    · exact (mem_setColVals_cols _).mpr (Or.inr rfl)
  · rw [if_neg htz]
    refine ⟨?_, ?_, fun h => absurd h htz⟩
    · exact (mem_setColVals_cols _).mpr (Or.inl ((mem_setColVals_cols _).mpr (Or.inr rfl)))
    · exact (mem_setColVals_cols _).mpr (Or.inr rfl)

theorem clamp_cols_stable (df : Table) (year month : Int) (tz : ZoneInfo)
    (hd : "date" ∈ df.cols) (hl : "datetime_local" ∈ df.cols)
    (hj : tz.name = "Asia/Tokyo" → "datetime_jst" ∈ df.cols) :
    (clamp_to_month_local df year month tz).cols = df.cols := by
  unfold clamp_to_month_local
  by_cases hempty : emptyTable df = true
  · rw [if_pos hempty]
  · rw [if_neg hempty]
    cases hser : clampSeries df with
    | none => rfl
    | some ts =>
      dsimp only
      by_cases htz : tz.name = "Asia/Tokyo"
      · rw [if_pos htz]
        simp only [setColVals]
        rw [if_pos hd, if_pos hl, if_pos (hj htz)]
      · rw [if_neg htz]
        simp only [setColVals]
        rw [if_pos hd, if_pos hl]

theorem clamp_idem (df : Table) (year month : Int) (tz : ZoneInfo)
    (hts : "timestamp" ∈ df.cols) :
    clamp_to_month_local (clamp_to_month_local df year month tz) year month tz =
      clamp_to_month_local df year month tz := by
  set out := clamp_to_month_local df year month tz with hout
  by_cases hrows2 : out.rows.isEmpty = true
  · unfold clamp_to_month_local
    rw [if_pos (by simp [emptyTable, hrows2])]
  · -- the first clamp went through its main branch: otherwise its rows
    -- would be the rows of df, which are nonempty here, so analyze df
    have hdfrows : df.rows.isEmpty = false := by
      by_contra hdf
      have hdf2 : df.rows = [] := List.isEmpty_iff.mp (by simpa using hdf)
      have : out.rows = [] := by
        rw [hout, clamp_rows_eq df year month tz hts]
        simp [clampSpecRows, hdf2]
      exact hrows2 (by simp [this])
    have hcolsne : df.cols.isEmpty = false := by
      cases hc : df.cols with
      | nil => rw [hc] at hts; cases hts
      | cons a t => rfl
    have hempty : emptyTable df = false := by simp [emptyTable, hdfrows, hcolsne]
    have hser : clampSeries df = some ((colVals df "timestamp").map cellToUtc) := by
      unfold clampSeries
      rw [if_pos hts]
    -- column facts about the first output
    have hts2 : "timestamp" ∈ out.cols := clamp_cols_sup df year month tz hts
    obtain ⟨hd2, hl2, hj2⟩ := clamp_cols_new df year month tz hempty hser
    -- row facts about the first output
    have hrowsout : out.rows = clampSpecRows df year month tz :=
      clamp_rows_eq df year month tz hts
    have hrowchar : ∀ r2 ∈ out.rows, ∃ u,
        rowInstant r2 = some u ∧
        (monthStartUtc year month tz ≤ u ∧ u < nextMonthStartUtc year month tz) ∧
        clampRetag tz r2 u = r2 := by
      intro r2 hr2
      rw [hrowsout] at hr2
      unfold clampSpecRows at hr2
      rw [List.mem_filterMap] at hr2
      obtain ⟨r, _, hr⟩ := hr2
      cases hfr : rowInstant r with
      | none => rw [hfr] at hr; cases hr
      | some u =>
        rw [hfr] at hr
        dsimp only at hr
        by_cases hb : monthStartUtc year month tz ≤ u ∧ u < nextMonthStartUtc year month tz
        · rw [if_pos hb] at hr
          obtain rfl := Option.some.inj hr
          refine ⟨u, ?_, hb, clampRetag_idem tz r u⟩
          rw [clampRetag_instant, hfr]
        · rw [if_neg hb] at hr
          cases hr
    -- the second clamp keeps every row and re-tags it identically
    apply table_eq_of
    · exact clamp_cols_stable out year month tz hd2 hl2 hj2
    · rw [clamp_rows_eq out year month tz hts2]
      unfold clampSpecRows
      apply filterMap_eq_self_of
      intro r2 hr2
      obtain ⟨u, hu, hb, hretag⟩ := hrowchar r2 hr2
      rw [hu]
      dsimp only
      rw [if_pos hb, hretag]

/-! ## Claim C4: length of the Local-Calendar Window -/

theorem daysFromCivil_day_shift (y m d : Int) :
    daysFromCivil y m d = daysFromCivil y m 0 + d := by
  simp only [daysFromCivil]
  ring

/-- `zoneinfo.ZoneInfo("America/New_York")` restricted to 2025: standard
time UTC-5 before the DST transition on 2025-03-09 at 02:00 local wall
clock (07:00 UTC), daylight time UTC-4 from then until the fall
transition (which is outside the months used here). -/
def newYorkSpring2025 : ZoneInfo :=
  { name := "America/New_York",
    offsetAtUtc := fun u => if u < 1741503600 then -18000 else -14400,
    offsetAtWall := fun w => if w < wallEpoch 2025 3 9 2 0 0 then -18000 else -14400 }

/-- Claim C4, counterexample: for `month_bounds_local(2025, 3)` in the
IANA zone America/New_York (which has a DST transition inside that
month), the interval between the two returned UTC instants is
31 days minus 1 hour minus 1 second, not 31 days minus 1 second: the
returned interval length is NOT independent of the chosen time zone. -/
theorem C4_counterexample :
    (month_bounds_local 2025 3 newYorkSpring2025).2 -
        (month_bounds_local 2025 3 newYorkSpring2025).1 =
      monthLength 2025 3 * 86400 - 3601 ∧
    (month_bounds_local 2025 3 newYorkSpring2025).2 -
        (month_bounds_local 2025 3 newYorkSpring2025).1 ≠
      monthLength 2025 3 * 86400 - 1 := by
  constructor
  · decide
  · decide

/-- Claim C4, amended: for every valid `(year, month)` and every time zone
whose UTC offset at the month's first local wall instant equals its offset
at the month's last local wall second (in particular every fixed-offset
zone, and every zone without a transition inside that month), the interval
between the two UTC instants returned by `month_bounds_local` equals the
number of days in the month times 86400, minus one second.  The original
claim quantified over all time zones; the counterexample shows a zone
with a DST transition inside the month violates it. -/
theorem C4_theorem (year month : Int) (tz : ZoneInfo)
    (hm1 : 1 ≤ month) (hm2 : month ≤ 12)
    (heq : tz.offsetAtWall (wallEpoch year month 1 0 0 0) =
      tz.offsetAtWall (wallEpoch year month (monthLength year month) 23 59 59)) :
    (month_bounds_local year month tz).2 - (month_bounds_local year month tz).1 =
      monthLength year month * 86400 - 1 := by
  unfold month_bounds_local
  dsimp only
  rw [← heq]
  have hshift := daysFromCivil_day_shift year month (monthLength year month)
  have hone := daysFromCivil_day_shift year month 1
  unfold wallEpoch
  rw [hshift, hone]
  ring

/-- Witness for C4 as amended: June 2025 in Asia/Tokyo (fixed offset), a
30-day month, gives an interval of 30·86400 − 1 seconds. -/
theorem C4_witness :
    (1 : Int) ≤ 6 ∧ (6 : Int) ≤ 12 ∧
    tokyoZone.offsetAtWall (wallEpoch 2025 6 1 0 0 0) =
      tokyoZone.offsetAtWall (wallEpoch 2025 6 (monthLength 2025 6) 23 59 59) ∧
    (month_bounds_local 2025 6 tokyoZone).2 - (month_bounds_local 2025 6 tokyoZone).1 =
      monthLength 2025 6 * 86400 - 1 :=
  ⟨by decide, by decide, rfl, C4_theorem 2025 6 tokyoZone (by decide) (by decide) rfl⟩

/-! ## Claims C3 and C5: clamping -/

/-- Claim C3: for every observation table (a table with a resolved
`timestamp` column), every `(year, month)` and every zone, clamping
retains exactly the rows whose instant `u` satisfies
`monthStartUtc ≤ u < nextMonthStartUtc` — the half-open local month
window, so a row exactly at the next month's local start is excluded and
a row exactly at the month's local start is included; every retained row
has its `date` recomputed from the local instant (overwriting any prior
value) and a local-datetime column attached; and every row whose instant
does not resolve (`NaT`/unparseable) is dropped.  `clampSpecRows` states
this row-for-row; `clamp_to_month_local` is the source translation. -/
theorem C3_theorem (df : Table) (year month : Int) (tz : ZoneInfo)
    (hts : "timestamp" ∈ df.cols) :
    (clamp_to_month_local df year month tz).rows = clampSpecRows df year month tz :=
  clamp_rows_eq df year month tz hts

/-- Concrete observation table for the clamping witnesses: June 2025 in
Asia/Tokyo runs from UTC instant 1748703600 (2025-05-31T15:00:00Z, the
local month start) up to but excluding 1751295600.  The table holds a row
exactly at the local month start (kept), a row exactly at the next local
month start (dropped), a row one second before it (kept), and a row with
an unresolvable instant (dropped). -/
def clampWitnessTable : Table :=
  ⟨["timestamp", "temperature"],
   [[("timestamp", Val.vtime (some 1748703600)), ("temperature", Val.num 1)],
    [("timestamp", Val.vtime (some 1751295600)), ("temperature", Val.num 2)],
    [("timestamp", Val.vtime (some 1751295599)), ("temperature", Val.num 3)],
    [("timestamp", Val.vtime none), ("temperature", Val.num 4)]]⟩

theorem C3_witness :
    "timestamp" ∈ clampWitnessTable.cols ∧
    (clamp_to_month_local clampWitnessTable 2025 6 tokyoZone).rows =
      clampSpecRows clampWitnessTable 2025 6 tokyoZone ∧
    (clamp_to_month_local clampWitnessTable 2025 6 tokyoZone).rows.length = 2 :=
  ⟨by decide, C3_theorem clampWitnessTable 2025 6 tokyoZone (by decide), by decide⟩

/-- Claim C5: clamping is idempotent — re-clamping an already-clamped
observation table with the same `(year, month, timeZone)` returns the
very same table (in particular the same set of rows). -/
theorem C5_theorem (df : Table) (year month : Int) (tz : ZoneInfo)
    (hts : "timestamp" ∈ df.cols) :
    clamp_to_month_local (clamp_to_month_local df year month tz) year month tz =
      clamp_to_month_local df year month tz :=
  clamp_idem df year month tz hts

theorem C5_witness :
    "timestamp" ∈ clampWitnessTable.cols ∧
    clamp_to_month_local (clamp_to_month_local clampWitnessTable 2025 6 tokyoZone)
        2025 6 tokyoZone =
      clamp_to_month_local clampWitnessTable 2025 6 tokyoZone ∧
    (clamp_to_month_local clampWitnessTable 2025 6 tokyoZone).rows ≠
      clampWitnessTable.rows :=
  ⟨by decide, C5_theorem clampWitnessTable 2025 6 tokyoZone (by decide), by decide⟩

/-! ## Claim C1: the round-trip example -/

/-- The columnar payload of the claim, with its `temp` field. -/
def payloadC1 : Json :=
  .obj [("temp", .arr [.num 10, .num 12]),
        ("validTimeUtc", .arr [.str "2025-06-01T00:00:00Z", .str "2025-06-01T12:00:00Z"])]

/-- The same payload with the field name the Daily Aggregator actually
recognizes (`temperature`, the raw API field), instead of `temp` (the
aggregated output name). -/
def payloadC1fixed : Json :=
  .obj [("temperature", .arr [.num 10, .num 12]),
        ("validTimeUtc", .arr [.str "2025-06-01T00:00:00Z", .str "2025-06-01T12:00:00Z"])]

/-- Normalize then aggregate, propagating any raised exception. -/
def pipelineOf (p : Json) : Except String Table :=
  match to_dataframe p with
  | .ok df => daily_aggregates df
  | .error e => .error e

/-- Claim C1, counterexample: normalizing the claimed payload succeeds,
but `daily_aggregates` then raises (pandas `TypeError` from
`groupby(...).agg()` with no aggregation mapping), because the payload
field is named `temp` while the aggregator only recognizes `temperature`.
The pipeline therefore does NOT yield a daily row with `temp = 11.0`. -/
theorem C1_counterexample :
    (to_dataframe payloadC1).isOk = true ∧
    pipelineOf payloadC1 = .error "agg requires functions or named aggregation args" := by
  constructor
  · rfl
  · rfl

/-- Claim C1, amended: with the temperature field under its recognized
raw name `temperature`, normalizing the columnar payload and aggregating
yields exactly one daily row, dated 2025-06-01 (both instants fall on
that Asia/Tokyo calendar date), with `temp = 11.0` (the rounded mean of
10 and 12). -/
theorem C1_theorem :
    pipelineOf payloadC1fixed =
      .ok ⟨["date", "temp"],
        [[("date", Val.vdate ⟨2025, 6, 1⟩), ("temp", Val.num 11)]]⟩ := by
  have h2 : pipelineOf payloadC1fixed =
      .ok ⟨["date", "temp"],
        [[("date", Val.vdate ⟨2025, 6, 1⟩),
          ("temp", round1Val (nanMean [Val.num 10, Val.num 12]))]]⟩ := by rfl
  have hX : round1Val (nanMean [Val.num 10, Val.num 12]) = Val.num 11 := by
    norm_num [nanMean, numsOf, round1Val, round1, roundHalfEven, List.filterMap_cons]
  rw [hX] at h2
  exact h2

/-! ## Claim C9: frame effects on the input tables -/

/-- A table with a resolved `timestamp` column and no `date` column: the
configuration under which `daily_aggregates` assigns to its argument. -/
def mutationTable : Table :=
  ⟨["timestamp", "temperature"],
   [[("timestamp", Val.vtime (some 0)), ("temperature", Val.num 5)]]⟩

/-- Claim C9, counterexample: `daily_aggregates` is NOT side-effect-free
on its input.  On a table with a `timestamp` column and no `date` column
it executes `df["date"] = ...` on the caller's frame (twc.py lines
242-243): afterwards the input table has gained a `date` column. -/
theorem C9_counterexample :
    (dailyAggregatesRun mutationTable).2 ≠ mutationTable ∧
    (dailyAggregatesRun mutationTable).2.cols = ["timestamp", "temperature", "date"] := by
  constructor
  · decide
  · decide

/-- The state of the input frame after `daily_aggregates` returns (or
raises), in every branch of the function. -/
theorem dailyAggregatesRun_snd (df : Table) :
    (dailyAggregatesRun df).2 =
      if emptyTable df then df
      else if "date" ∉ df.cols ∧ "timestamp" ∈ df.cols then
        match columnTimes df "timestamp" with
        | some ts => setColVals df "date" (ts.map tokyoDateVal)
        | none => df
      else df := by
  unfold dailyAggregatesRun
  by_cases hemp : emptyTable df = true
  · rw [if_pos hemp, if_pos hemp]
  · rw [if_neg hemp, if_neg hemp]
    by_cases hcond : "date" ∉ df.cols ∧ "timestamp" ∈ df.cols
    · rw [if_pos hcond]
      dsimp only
      rw [if_pos hcond]
      cases hct : columnTimes df "timestamp" with
      | some ts =>
        dsimp only
        repeat (first | rfl | split)
      | none => rfl
    · rw [if_neg hcond]
      dsimp only
      rw [if_neg hcond]
      repeat (first | rfl | split)

/-- Claim C9, amended: the state of the input frame after
`daily_aggregates` returns (or raises) is: unchanged, except that when
the input is nonempty, lacks a `date` column and has a datetime-typed
`timestamp` column, the derived Asia/Tokyo `date` column has been added
to it in place.  (The other pipeline operations — `to_dataframe`,
`clamp_to_month_local`, `ten_day_buckets`, `guess_sales_column` — assign
only to freshly built or copied frames, which the embedding reflects by
translating them as pure functions of their input.) -/
theorem C9_theorem (df : Table) :
    (dailyAggregatesRun df).2 =
      if emptyTable df then df
      else if "date" ∉ df.cols ∧ "timestamp" ∈ df.cols then
        match columnTimes df "timestamp" with
        | some ts => setColVals df "date" (ts.map tokyoDateVal)
        | none => df
      else df :=
  dailyAggregatesRun_snd df

/-! ## Claim C10: the fixed reference local zone is Asia/Tokyo -/

/-- Claim C10: the unnamed fixed reference zone is Asia/Tokyo (UTC+9,
no DST; `tokyoDateVal` shifts the UTC instant by 32400 seconds before
taking the calendar date).  (1) Whenever timestamp resolution succeeds
in `to_dataframe` (a candidate column is found), the derived `date`
column is the Asia/Tokyo calendar date of each parsed UTC instant.
(2) `daily_aggregates`, deriving `date` on the fly from `timestamp`,
writes the same Asia/Tokyo dates.  (3) Concretely, the instant
2025-06-01T15:30:00Z is dated 2025-06-02, not 2025-06-01. -/
theorem C10_theorem :
    (∀ (df : Table) (c : String) (out : Table),
        timeCandidates.find? (fun c2 => c2 ∈ df.cols) = some c →
        resolveTimeCols df = .ok out →
        colVals out "date" = (colVals df c).map (fun v => tokyoDateVal (cellToUtc v))) ∧
    (∀ (df : Table) (ts : List (Option Int)),
        emptyTable df = false → "date" ∉ df.cols → "timestamp" ∈ df.cols →
        columnTimes df "timestamp" = some ts →
        colVals (dailyAggregatesRun df).2 "date" = ts.map tokyoDateVal) ∧
    to_dataframe (.obj [("validTimeUtc", .arr [.str "2025-06-01T15:30:00Z"])]) =
      .ok ⟨["validTimeUtc", "timestamp", "date", "datetime_jst"],
        [[("validTimeUtc", Val.str "2025-06-01T15:30:00Z"),
          ("timestamp", Val.vtime (some 1748791800)),
          ("date", Val.vdate ⟨2025, 6, 2⟩),
          ("datetime_jst", Val.vtime (some 1748791800))]]⟩ := by
  refine ⟨?_, ?_, by rfl⟩
  · intro df c out hfind hok
    unfold resolveTimeCols at hok
    rw [hfind] at hok
    dsimp only at hok
    have hvs2 : (colVals df c).map (fun v => Val.vtime (cellToUtc v)) =
        df.rows.map (fun r => Val.vtime (cellToUtc (rowGetD r c))) := by
      rw [colVals_eq_map, List.map_map]
      rfl
    rw [hvs2] at hok
    have hrows1 : (setColVals df "timestamp"
        (df.rows.map (fun r => Val.vtime (cellToUtc (rowGetD r c))))).rows =
        df.rows.map (fun r =>
          rowSet r "timestamp" (Val.vtime (cellToUtc (rowGetD r c)))) :=
      setColVals_rows_map df _ _
    have hmem : "timestamp" ∈ (setColVals df "timestamp"
        (df.rows.map (fun r => Val.vtime (cellToUtc (rowGetD r c))))).cols :=
      (mem_setColVals_cols _).mpr (Or.inr rfl)
    rw [if_pos hmem] at hok
    have hall : (setColVals df "timestamp"
        (df.rows.map (fun r => Val.vtime (cellToUtc (rowGetD r c))))).rows.all
        (fun r => match rowGetD r "timestamp" with | .vtime _ => true | _ => false) = true := by
      rw [hrows1, List.all_eq_true]
      intro r' hr'
      rw [List.mem_map] at hr'
      obtain ⟨r, _, rfl⟩ := hr'
      rw [rowGetD_rowSet_same]
    have hct : columnTimes (setColVals df "timestamp"
        (df.rows.map (fun r => Val.vtime (cellToUtc (rowGetD r c))))) "timestamp" =
        some (df.rows.map (fun r => cellToUtc (rowGetD r c))) := by
      unfold columnTimes
      rw [if_pos hall, hrows1, List.map_map]
      congr 1
      apply List.map_congr_left
      intro r _
      simp only [Function.comp_apply, rowGetD_rowSet_same]
    rw [hct] at hok
    dsimp only at hok
    obtain rfl := (Except.ok.inj hok).symm
    -- compute the date column of the produced frame
    rw [colVals_eq_map]
    simp only [setColVals]
    rw [zipWith_map_self, List.map_map, List.map_map, zipWith_map_both, zipWith_map_both,
      List.map_map, colVals_eq_map, List.map_map]
    apply List.map_congr_left
    intro r _
    simp only [Function.comp_apply]
    rw [rowGetD_rowSet_ne _ _ (by decide : ("date" : String) ≠ "datetime_jst"),
      rowGetD_rowSet_same]
  · intro df ts hemp hd hts hct
    rw [dailyAggregatesRun_snd df, if_neg (by simp [hemp]), if_pos ⟨hd, hts⟩, hct]
    unfold columnTimes at hct
    by_cases hall : df.rows.all
        (fun r => match rowGetD r "timestamp" with | .vtime _ => true | _ => false) = true
    · rw [if_pos hall] at hct
      obtain rfl := (Option.some.inj hct).symm
      dsimp only
      rw [List.map_map]
      exact colVals_setColVals_map_same df "date" _
    · rw [if_neg hall] at hct
      cases hct

theorem C10_witness :
    emptyTable mutationTable = false ∧ "date" ∉ mutationTable.cols ∧
    "timestamp" ∈ mutationTable.cols ∧
    columnTimes mutationTable "timestamp" = some [some 0] ∧
    colVals (dailyAggregatesRun mutationTable).2 "date" = [some 0].map tokyoDateVal :=
  ⟨by decide, by decide, by decide, by rfl,
    C10_theorem.2.1 mutationTable [some 0] (by decide) (by decide) (by decide) (by rfl)⟩

/-! ## Claim C8: the Sales/Quantity Column Heuristic -/

/-- First priority entry with any case-insensitive match, then its first
matching column — the wording of step (1) of the claim. -/
def specStage1 (cand : List String) : Option String :=
  match priorityNames.filter (fun name => cand.any (fun c => lowerKey c == lowerKey name)) with
  | [] => none
  | name :: _ => cand.find? (fun c => lowerKey c == lowerKey name)

/-- First remaining numeric column matching the token rule — step (2). -/
def specStage2 (cand : List String) : Option String :=
  cand.find? tokenRuleMatch

/-- The heuristic as the amended claim words it: numeric candidates only
(fixed exclusion set respected), stage 1, else stage 2, else first
remaining numeric column, else an explicit none. -/
def guessSalesSpec (df : Table) : Option String :=
  if emptyTable df then none
  else
    let cand := numericCandidates df
    if cand.isEmpty then none
    else
      match specStage1 cand with
      | some c => some c
      | none =>
        match specStage2 cand with
        | some c => some c
        | none => cand.head?

theorem findSome?_eq_filter_head {α β : Type} (f : α → Option β) (l : List α) :
    l.findSome? f =
      (match l.filter (fun a => (f a).isSome) with
       | [] => none
       | a :: _ => f a) := by
  induction l with
  | nil => rfl
  | cons a t ih =>
    rw [List.findSome?_cons, List.filter_cons]
    cases hfa : f a with
    | some b => simp [hfa]
    | none => simp [hfa, ih]

/-- The concrete table of the claim: numeric columns
`shipped_units`, `random_metric` besides `date`. -/
def shippedTable : Table :=
  ⟨["date", "shipped_units", "random_metric"],
   [[("date", Val.vdate ⟨2025, 6, 1⟩), ("shipped_units", Val.num 3),
     ("random_metric", Val.num 1)]]⟩

/-- Claim C8, counterexample: on the claimed input the heuristic does
return `shipped_units`, but NOT by the token rule: the token sets are the
Japanese 売/販/出荷 × 数/個/量 sets, no token of which occurs in the
ASCII name `shipped_units` (nor in `random_metric`), so step (2) matches
nothing and the result comes from the order fallback, step (3). -/
theorem C8_counterexample :
    tokenRuleMatch "shipped_units" = false ∧
    (numericCandidates shippedTable).find? tokenRuleMatch = none ∧
    guess_sales_column shippedTable = some "shipped_units" := by
  refine ⟨by decide, by decide, by decide⟩

/-- Claim C8, amended: the heuristic considers only numeric columns
outside the fixed exclusion set, and returns: (1) the first (in column
order) column matching the earliest priority-list entry with any exact
case-insensitive match; failing that, (2) the first remaining numeric
column containing a 売/販/出荷 token AND a 数/個/量 token (substring
containment) — a rule no ASCII name such as `shipped_units` can match;
failing that, (3) the first remaining numeric column in original column
order — which is what returns `shipped_units` on the claimed example;
and (4) an explicit none when no numeric candidate remains, never an
error (the function is total).  `guessSalesSpec` states the staged
algorithm; `guess_sales_column` is the source translation. -/
theorem C8_theorem :
    (∀ df : Table, guess_sales_column df = guessSalesSpec df) ∧
    (∀ df : Table, numericCandidates df = [] → guess_sales_column df = none) ∧
    numericCandidates shippedTable = ["shipped_units", "random_metric"] ∧
    guess_sales_column shippedTable = some "shipped_units" := by
  have hmain : ∀ df : Table, guess_sales_column df = guessSalesSpec df := by
    intro df
    unfold guess_sales_column guessSalesSpec
    by_cases hemp : emptyTable df = true
    · rw [if_pos hemp, if_pos hemp]
    · rw [if_neg hemp, if_neg hemp]
      dsimp only
      by_cases hcand : (numericCandidates df).isEmpty = true
      · rw [if_pos hcand, if_pos hcand]
      · rw [if_neg hcand, if_neg hcand]
        have hstage1 : priorityNames.findSome? (fun name =>
            (numericCandidates df).find? (fun c => lowerKey c == lowerKey name)) =
            specStage1 (numericCandidates df) := by
          rw [findSome?_eq_filter_head]
          unfold specStage1
          have hpred : ∀ name : String,
              ((numericCandidates df).find? (fun c => lowerKey c == lowerKey name)).isSome =
              (numericCandidates df).any (fun c => lowerKey c == lowerKey name) := by
            intro name
            cases h : (numericCandidates df).any (fun c => lowerKey c == lowerKey name) with
            | true =>
              have h2 := List.any_eq_true.mp h
              exact List.find?_isSome.mpr (by simpa using h2)
            | false =>
              have h2 := List.any_eq_false.mp h
              have h3 : List.find? (fun c => lowerKey c == lowerKey name)
                  (numericCandidates df) = none :=
                List.find?_eq_none.mpr (by simpa using h2)
              rw [h3]
              rfl
          rw [List.filter_congr (fun name _ => hpred name)]
          cases List.filter (fun name =>
              (numericCandidates df).any fun c => lowerKey c == lowerKey name) priorityNames with
          | nil => rfl
          | cons a t => rfl
        rw [hstage1]
        rfl
  refine ⟨hmain, ?_, by decide, by decide⟩
  intro df hnone
  rw [hmain df]
  unfold guessSalesSpec
  by_cases hemp : emptyTable df = true
  · rw [if_pos hemp]
  · rw [if_neg hemp]
    dsimp only
    rw [hnone]
    rfl

theorem C8_witness :
    numericCandidates (⟨["date"], [[("date", Val.str "x")]]⟩ : Table) = [] ∧
    guess_sales_column (⟨["date"], [[("date", Val.str "x")]]⟩ : Table) = none :=
  ⟨by decide, C8_theorem.2.1 _ (by decide)⟩

/-! ## Claim C2: the precipitation aggregation policy -/

theorem mem_roundCol_rows {t : Table} {c : String} {r2 : Row}
    (h : r2 ∈ (roundCol t c).rows) :
    ∃ r0 ∈ t.rows, ∀ c2, c2 ≠ c → rowGetD r2 c2 = rowGetD r0 c2 := by
  unfold roundCol at h
  split at h
  · dsimp only at h
    rw [List.mem_map] at h
    obtain ⟨r0, hr0, rfl⟩ := h
    exact ⟨r0, hr0, fun c2 hc2 => rowGetD_rowSet_ne _ _ hc2⟩
  · exact ⟨r2, h, fun _ _ => rfl⟩

theorem find?_assoc_of_unique {β : Type} {base : List (String × β)} {F : String × β → Val}
    {c : String} {mp : String × β} (hmem : mp ∈ base)
    (huniq : ∀ q ∈ base, q.1 = c → q = mp) (hkey : mp.1 = c) :
    (base.map (fun q => (q.1, F q))).find? (fun p => p.1 == c) = some (c, F mp) := by
  induction base with
  | nil => cases hmem
  | cons q0 t ih =>
    by_cases hq : q0.1 = c
    · have hq0 := huniq q0 (List.mem_cons_self q0 t) hq
      subst hq0
      simp [List.find?, hq]
    · have hq0 : (q0.1 == c) = false := by simp [hq]
      rw [List.map_cons]
      rw [List.find?]
      rw [hq0]
      apply ih
      · cases List.mem_cons.mp hmem with
        | inl hx =>
          exfalso
          rw [← hx] at hq
          exact hq hkey
        | inr hx => exact hx
      · exact fun q hq2 => huniq q (List.mem_cons_of_mem q0 hq2)

/-- The `precip` cell of every output row of the grouped-and-rounded
daily frame is the unrounded aggregate of the precipitation source
column over the input rows sharing the row's date. -/
theorem daily_out_precip (df : Table) (mapping : List (String × String × AggOp))
    (cols0 : List String) (keys : List Val) (pcc : String) (pop : AggOp)
    (hmem : ("precip", pcc, pop) ∈ mapping)
    (huniq : ∀ q ∈ mapping, q.1 = "precip" → q = ("precip", pcc, pop))
    (r2 : Row)
    (hr2 : r2 ∈ (roundCol (roundCol
      (⟨cols0, keys.map (fun k => ("date", k) :: mapping.map (fun mp =>
        (mp.1, applyAgg mp.2.2 ((df.rows.filter (fun r => rowGetD r "date" == k)).map
          (fun r => rowGetD r mp.2.1)))))⟩ : Table) "temp") "humidity").rows) :
    rowGetD r2 "precip" = applyAgg pop ((df.rows.filter
      (fun r => rowGetD r "date" == rowGetD r2 "date")).map (fun r => rowGetD r pcc)) := by
  obtain ⟨r1, hr1, hp1⟩ := mem_roundCol_rows hr2
  obtain ⟨r0, hr0, hp0⟩ := mem_roundCol_rows hr1
  have hpre : rowGetD r2 "precip" = rowGetD r0 "precip" :=
    (hp1 "precip" (by decide)).trans (hp0 "precip" (by decide))
  have hdate : rowGetD r2 "date" = rowGetD r0 "date" :=
    (hp1 "date" (by decide)).trans (hp0 "date" (by decide))
  dsimp only at hr0
  rw [List.mem_map] at hr0
  obtain ⟨k, hk, rfl⟩ := hr0
  have hdk : rowGetD (("date", k) :: mapping.map (fun mp =>
      (mp.1, applyAgg mp.2.2 ((df.rows.filter (fun r => rowGetD r "date" == k)).map
        (fun r => rowGetD r mp.2.1))))) "date" = k := rfl
  have hfind := find?_assoc_of_unique (F := fun mp =>
      applyAgg mp.2.2 ((df.rows.filter (fun r => rowGetD r "date" == k)).map
        (fun r => rowGetD r mp.2.1))) hmem huniq rfl
  have hfind2 : List.find? (fun p => p.1 == "precip")
      (mapping.map (fun mp => (mp.1, applyAgg mp.2.2
        ((df.rows.filter (fun r => rowGetD r "date" == k)).map
          (fun r => rowGetD r mp.2.1))))) =
      some ("precip", applyAgg pop ((df.rows.filter (fun r => rowGetD r "date" == k)).map
        (fun r => rowGetD r pcc))) := by
    simpa using hfind
  have hskip : rowGetD (("date", k) :: mapping.map (fun mp =>
      (mp.1, applyAgg mp.2.2 ((df.rows.filter (fun r => rowGetD r "date" == k)).map
        (fun r => rowGetD r mp.2.1))))) "precip" =
      (Option.map Prod.snd ((mapping.map (fun mp =>
        (mp.1, applyAgg mp.2.2 ((df.rows.filter (fun r => rowGetD r "date" == k)).map
          (fun r => rowGetD r mp.2.1))))).find? (fun p => p.1 == "precip"))).getD Val.nan := rfl
  have hpk : rowGetD (("date", k) :: mapping.map (fun mp =>
      (mp.1, applyAgg mp.2.2 ((df.rows.filter (fun r => rowGetD r "date" == k)).map
        (fun r => rowGetD r mp.2.1))))) "precip" =
      applyAgg pop ((df.rows.filter (fun r => rowGetD r "date" == k)).map
        (fun r => rowGetD r pcc)) := by
    rw [hskip, hfind2]
    rfl
  rw [hpre, hpk, hdate, hdk]

theorem emptyTable_rows_nil {df : Table} (hemp : emptyTable df = true)
    (hc : df.cols ≠ []) : df.rows = [] := by
  unfold emptyTable at hemp
  rw [Bool.or_eq_true] at hemp
  cases hemp with
  | inl h => exact List.isEmpty_iff.mp h
  | inr h => exact absurd (List.isEmpty_iff.mp h) hc

/-- Claim C2: for every observation table carrying a `date` column and
every date appearing in the Daily Aggregator's output, the `precip`
value is the NaN-skipping maximum of the `precip24Hour` cells of the
input rows with that date whenever the `precip24Hour` column is present
(whether or not `precip1Hour` is also present), and the NaN-skipping sum
of the `precip1Hour` cells when only `precip1Hour` is present; in both
cases the exact aggregate — `precip` is never rounded. -/
theorem C2_theorem (df : Table) (out : Table) (hd : "date" ∈ df.cols)
    (hok : daily_aggregates df = .ok out) :
    ∀ r2 ∈ out.rows,
      ("precip24Hour" ∈ df.cols →
        rowGetD r2 "precip" =
          nanMax ((df.rows.filter (fun r => rowGetD r "date" == rowGetD r2 "date")).map
            (fun r => rowGetD r "precip24Hour"))) ∧
      ("precip24Hour" ∉ df.cols → "precip1Hour" ∈ df.cols →
        rowGetD r2 "precip" =
          nanSum ((df.rows.filter (fun r => rowGetD r "date" == rowGetD r2 "date")).map
            (fun r => rowGetD r "precip1Hour"))) := by
  have hcne : df.cols ≠ [] := fun h => by rw [h] at hd; cases hd
  unfold daily_aggregates dailyAggregatesRun at hok
  by_cases hemp : emptyTable df = true
  · rw [if_pos hemp] at hok
    dsimp only at hok
    obtain rfl := (Except.ok.inj hok).symm
    intro r2 hr2
    rw [emptyTable_rows_nil hemp hcne] at hr2
    cases hr2
  · rw [if_neg hemp] at hok
    dsimp only at hok
    rw [if_neg (fun hc => hc.1 hd)] at hok
    dsimp only at hok
    rw [if_neg (fun hc => hc hd)] at hok
    by_cases h24 : "precip24Hour" ∈ df.cols
    · rw [if_pos h24] at hok
      dsimp only at hok
      rw [if_neg (by
        intro hmap
        rw [List.isEmpty_iff, List.append_eq_nil, List.append_eq_nil] at hmap
        cases hmap.2)] at hok
      obtain rfl := (Except.ok.inj hok).symm
      intro r2 hr2
      constructor
      · intro _
        have := daily_out_precip df _ _ _ "precip24Hour" AggOp.amax
          (by
            apply List.mem_append_right
            exact List.mem_cons_self _ _)
          (by
            intro q hq hqp
            rcases List.mem_append.mp hq with hq12 | hqp2
            · exfalso
              rcases List.mem_append.mp hq12 with hq1 | hq3
              · revert hq1
                cases hx : (if "temperature" ∈ df.cols then some "temperature" else none) with
                | some c =>
                  intro hq1
                  rw [List.eq_of_mem_singleton hq1] at hqp
                  simp at hqp
                | none => intro hq1; cases hq1
              · revert hq3
                cases hx : (if "relativeHumidity" ∈ df.cols then some "relativeHumidity" else none) with
                | some c =>
                  intro hq3
                  rw [List.eq_of_mem_singleton hq3] at hqp
                  simp at hqp
                | none => intro hq3; cases hq3
            · exact List.eq_of_mem_singleton hqp2)
          r2 hr2
        exact this
      · intro h24n _
        exact absurd h24 h24n
    · rw [if_neg h24] at hok
      by_cases h1 : "precip1Hour" ∈ df.cols
      · rw [if_pos h1] at hok
        dsimp only at hok
        rw [if_neg (by
          intro hmap
          rw [List.isEmpty_iff, List.append_eq_nil, List.append_eq_nil] at hmap
          cases hmap.2)] at hok
        obtain rfl := (Except.ok.inj hok).symm
        intro r2 hr2
        constructor
        · intro h24c
          exact absurd h24c h24
        · intro _ _
          have := daily_out_precip df _ _ _ "precip1Hour" AggOp.asum
            (by
              apply List.mem_append_right
              exact List.mem_cons_self _ _)
            (by
              intro q hq hqp
              rcases List.mem_append.mp hq with hq12 | hqp2
              · exfalso
                rcases List.mem_append.mp hq12 with hq1 | hq3
                · revert hq1
                  cases hx : (if "temperature" ∈ df.cols then some "temperature" else none) with
                  | some c =>
                    intro hq1
                    rw [List.eq_of_mem_singleton hq1] at hqp
                    simp at hqp
                  | none => intro hq1; cases hq1
                · revert hq3
                  cases hx : (if "relativeHumidity" ∈ df.cols then some "relativeHumidity" else none) with
                  | some c =>
                    intro hq3
                    rw [List.eq_of_mem_singleton hq3] at hqp
                    simp at hqp
                  | none => intro hq3; cases hq3
              · exact List.eq_of_mem_singleton hqp2)
            r2 hr2
          exact this
      · intro r2 hr2
        exact ⟨fun h24c => absurd h24c h24, fun _ h1c => absurd h1c h1⟩

/-- A table carrying BOTH precipitation fields: the 24-hour field must
win with the maximum (5), not the hourly sum (6). -/
def precipTable : Table :=
  ⟨["date", "precip24Hour", "precip1Hour"],
   [[("date", Val.vdate ⟨2025, 6, 1⟩), ("precip24Hour", Val.num 5), ("precip1Hour", Val.num 2)],
    [("date", Val.vdate ⟨2025, 6, 1⟩), ("precip24Hour", Val.num 3), ("precip1Hour", Val.num 4)]]⟩

theorem C2_witness :
    "date" ∈ precipTable.cols ∧
    daily_aggregates precipTable =
      .ok ⟨["date", "precip"],
        [[("date", Val.vdate ⟨2025, 6, 1⟩), ("precip", Val.num 5)]]⟩ ∧
    (∀ r2 ∈ (⟨["date", "precip"],
        [[("date", Val.vdate ⟨2025, 6, 1⟩), ("precip", Val.num 5)]]⟩ : Table).rows,
      ("precip24Hour" ∈ precipTable.cols →
        rowGetD r2 "precip" =
          nanMax ((precipTable.rows.filter
            (fun r => rowGetD r "date" == rowGetD r2 "date")).map
              (fun r => rowGetD r "precip24Hour"))) ∧
      ("precip24Hour" ∉ precipTable.cols → "precip1Hour" ∈ precipTable.cols →
        rowGetD r2 "precip" =
          nanSum ((precipTable.rows.filter
            (fun r => rowGetD r "date" == rowGetD r2 "date")).map
              (fun r => rowGetD r "precip1Hour")))) :=
  ⟨by decide, by rfl, C2_theorem precipTable _ (by decide) (by rfl)⟩

/-! ## Claims C6 and C7: the Ten-Day Bucketizer -/

theorem roundCol_cols (t : Table) (c : String) : (roundCol t c).cols = t.cols := by
  unfold roundCol
  split
  · rfl
  · rfl

theorem mem_roundCol_rows_strong {t : Table} {c : String} {r2 : Row}
    (h : r2 ∈ (roundCol t c).rows) :
    ∃ r0 ∈ t.rows, (∀ c2, c2 ≠ c → rowGetD r2 c2 = rowGetD r0 c2) ∧
      (c ∈ t.cols → rowGetD r2 c = round1Val (rowGetD r0 c)) := by
  unfold roundCol at h
  by_cases hc : c ∈ t.cols
  · rw [if_pos hc] at h
    dsimp only at h
    rw [List.mem_map] at h
    obtain ⟨r0, hr0, rfl⟩ := h
    exact ⟨r0, hr0, fun c2 hc2 => rowGetD_rowSet_ne _ _ hc2,
      fun _ => rowGetD_rowSet_same _ _ _⟩
  · rw [if_neg hc] at h
    exact ⟨r2, h, fun _ _ => rfl, fun hcc => absurd hcc hc⟩

theorem roundCol_rows_surj {t : Table} {c : String} {r0 : Row} (h : r0 ∈ t.rows) :
    ∃ r2 ∈ (roundCol t c).rows, ∀ c2, c2 ≠ c → rowGetD r2 c2 = rowGetD r0 c2 := by
  unfold roundCol
  by_cases hc : c ∈ t.cols
  · rw [if_pos hc]
    dsimp only
    exact ⟨rowSet r0 c (round1Val (rowGetD r0 c)),
      List.mem_map.mpr ⟨r0, h, rfl⟩, fun c2 hc2 => rowGetD_rowSet_ne _ _ hc2⟩
  · rw [if_neg hc]
    exact ⟨r0, h, fun _ _ => rfl⟩

theorem roundCol_map_getD_ne {t : Table} {c : String} (c2 : String) (hne : c2 ≠ c) :
    (roundCol t c).rows.map (fun r => rowGetD r c2) = t.rows.map (fun r => rowGetD r c2) := by
  unfold roundCol
  split
  · dsimp only
    rw [List.map_map]
    exact List.map_congr_left (fun r _ => rowGetD_rowSet_ne _ _ hne)
  · rfl

theorem valStr_beq (a b : String) : (Val.str a == Val.str b) = (a == b) := by
  by_cases h : a = b
  · simp [h]
  · simp [h]

theorem charsLE_total (as bs : List Char) : charsLE as bs = true ∨ charsLE bs as = true := by
  induction as generalizing bs with
  | nil => left; rfl
  | cons a at2 ih =>
    cases bs with
    | nil => right; rfl
    | cons b bt =>
      unfold charsLE
      by_cases h1 : a.toNat < b.toNat
      · left
        rw [if_pos h1]
      · by_cases h2 : b.toNat < a.toNat
        · right
          rw [if_pos h2]
        · rw [if_neg h1, if_neg h2, if_neg h2, if_neg h1]
          exact ih bt

theorem strLEb_total (a b : String) : strLEb a b = true ∨ strLEb b a = true :=
  charsLE_total a.data b.data

theorem bucketRankLE_total (a b : String) :
    bucketRankLE a b = true ∨ bucketRankLE b a = true := by
  unfold bucketRankLE
  rcases Nat.le_total (bucketRank a) (bucketRank b) with h | h
  · left
    exact decide_eq_true h
  · right
    exact decide_eq_true h

theorem chainLEb_map {α β : Type} (le : β → β → Bool) (f : α → β) (l : List α) :
    chainLEb le (l.map f) = chainLEb (fun a b => le (f a) (f b)) l := by
  induction l with
  | nil => rfl
  | cons a t ih =>
    cases t with
    | nil => rfl
    | cons b t2 =>
      unfold chainLEb
      rw [← ih]
      rfl

theorem ten_day_g_rows (df : Table) :
    (setColVals (setColVals df "day"
        ((colVals df "date").map (fun v =>
          match dayOfVal v with | some d => Val.num d | none => Val.nan)))
      "bucket" (((colVals df "date").map bucketVal).map Val.str)).rows =
    df.rows.map (fun r =>
      rowSet (rowSet r "day"
        (match dayOfVal (rowGetD r "date") with | some d => Val.num d | none => Val.nan))
        "bucket" (Val.str (bucketVal (rowGetD r "date")))) := by
  simp only [setColVals, colVals_eq_map, List.map_map]
  rw [zipWith_map_self, zipWith_map_both]
  apply List.map_congr_left
  intro r _
  rfl

theorem ten_day_filter_vals (df : Table) (b : String) (c : String)
    (h1 : c ≠ "day") (h2 : c ≠ "bucket") :
    ((df.rows.map (fun r =>
        rowSet (rowSet r "day"
          (match dayOfVal (rowGetD r "date") with | some d => Val.num d | none => Val.nan))
          "bucket" (Val.str (bucketVal (rowGetD r "date"))))).filter
      (fun r => rowGetD r "bucket" == Val.str b)).map (fun r => rowGetD r c) =
    (df.rows.filter (fun r => bucketVal (rowGetD r "date") == b)).map
      (fun r => rowGetD r c) := by
  rw [List.filter_map, List.map_map]
  have hfeq : ∀ r ∈ df.rows,
      ((fun r => rowGetD r "bucket" == Val.str b) ∘ (fun r =>
        rowSet (rowSet r "day"
          (match dayOfVal (rowGetD r "date") with | some d => Val.num d | none => Val.nan))
          "bucket" (Val.str (bucketVal (rowGetD r "date"))))) r =
      (bucketVal (rowGetD r "date") == b) := by
    intro r _
    simp only [Function.comp_apply, rowGetD_rowSet_same, valStr_beq]
  rw [List.filter_congr hfeq]
  apply List.map_congr_left
  intro r _
  simp only [Function.comp_apply]
  rw [rowGetD_rowSet_ne _ _ h2, rowGetD_rowSet_ne _ _ h1]

theorem ten_day_gcols_mem (df : Table) (vs1 vs2 : List Val) (c : String)
    (h1 : c ≠ "day") (h2 : c ≠ "bucket") :
    (c ∈ (setColVals (setColVals df "day" vs1) "bucket" vs2).cols) ↔ c ∈ df.cols := by
  rw [mem_setColVals_cols, mem_setColVals_cols]
  constructor
  · rintro ((h | h) | h)
    · exact h
    · exact absurd h h1
    · exact absurd h h2
  · exact fun h => Or.inl (Or.inl h)

/-- The `agg_map` of `ten_day_buckets`, phrased over the input columns
(adding the `day`/`bucket` helper columns does not change whether the
three metric columns are present). -/
def aggMapOf (df : Table) : List (String × AggOp) :=
  (if "temp" ∈ df.cols then [("temp", AggOp.mean)] else []) ++
  (if "humidity" ∈ df.cols then [("humidity", AggOp.mean)] else []) ++
  (if "precip" ∈ df.cols then [("precip", AggOp.asum)] else [])

theorem aggMap_g_eq (df : Table) (vs1 vs2 : List Val) :
    ((if "temp" ∈ (setColVals (setColVals df "day" vs1) "bucket" vs2).cols then
        [("temp", AggOp.mean)] else []) ++
     (if "humidity" ∈ (setColVals (setColVals df "day" vs1) "bucket" vs2).cols then
        [("humidity", AggOp.mean)] else []) ++
     (if "precip" ∈ (setColVals (setColVals df "day" vs1) "bucket" vs2).cols then
        [("precip", AggOp.asum)] else [])) = aggMapOf df := by
  unfold aggMapOf
  congr 1
  · congr 1
    · exact if_congr (ten_day_gcols_mem df vs1 vs2 "temp" (by decide) (by decide)) rfl rfl
    · exact if_congr (ten_day_gcols_mem df vs1 vs2 "humidity" (by decide) (by decide)) rfl rfl
  · exact if_congr (ten_day_gcols_mem df vs1 vs2 "precip" (by decide) (by decide)) rfl rfl

theorem mem_if_singleton {α : Type} {q x : α} {P : Prop} [Decidable P]
    (h : q ∈ (if P then [x] else [])) : q = x := by
  split at h
  · exact List.eq_of_mem_singleton h
  · cases h

theorem aggMapOf_keys (df : Table) :
    ∀ q ∈ aggMapOf df, q.1 = "temp" ∨ q.1 = "humidity" ∨ q.1 = "precip" := by
  intro q hq
  unfold aggMapOf at hq
  rcases List.mem_append.mp hq with h12 | h3
  · rcases List.mem_append.mp h12 with h1 | h2
    · exact Or.inl (by rw [mem_if_singleton h1])
    · exact Or.inr (Or.inl (by rw [mem_if_singleton h2]))
  · exact Or.inr (Or.inr (by rw [mem_if_singleton h3]))

/-- `ten_day_buckets` on a nonempty daily table with a `date` column,
re-expressed entirely over the input table (helper columns eliminated). -/
theorem ten_day_unfold (df : Table) (hd : "date" ∈ df.cols) (hne : df.rows ≠ []) :
    ten_day_buckets df =
      (if (aggMapOf df).isEmpty then
        ⟨["bucket"],
         (sortByB strLEb (df.rows.map (fun r => bucketVal (rowGetD r "date"))).dedup).map
           (fun b => [("bucket", Val.str b)])⟩
      else
        roundCol (roundCol (⟨"bucket" :: (aggMapOf df).map Prod.fst,
          (sortByB bucketRankLE (sortByB strLEb
            (df.rows.map (fun r => bucketVal (rowGetD r "date"))).dedup)).map (fun b =>
            ("bucket", Val.str b) :: (aggMapOf df).map (fun mp =>
              (mp.1, applyAgg mp.2 ((df.rows.filter (fun r =>
                bucketVal (rowGetD r "date") == b)).map (fun r => rowGetD r mp.1)))))⟩ : Table)
          "temp") "humidity") := by
  have hcne : df.cols ≠ [] := by
    intro h
    rw [h] at hd
    cases hd
  have hempF : emptyTable df = false := by
    unfold emptyTable
    rw [Bool.or_eq_false_iff]
    constructor
    · cases hx : df.rows with
      | nil => exact absurd hx hne
      | cons a t => rfl
    · cases hx : df.cols with
      | nil => exact absurd hx hcne
      | cons a t => rfl
  unfold ten_day_buckets
  rw [show (emptyTable df || decide ("date" ∉ df.cols)) = false by
    rw [hempF, decide_eq_false (not_not_intro hd)]
    rfl]
  rw [if_neg Bool.false_ne_true]
  dsimp only
  rw [aggMap_g_eq df]
  simp only [ten_day_g_rows df]
  simp only [colVals_eq_map, List.map_map, Function.comp_def]
  by_cases hmap : (aggMapOf df).isEmpty = true
  · rw [if_pos hmap, if_pos hmap]
  · rw [if_neg hmap, if_neg hmap]
    refine congrArg (fun t => roundCol (roundCol t "temp") "humidity") ?_
    refine table_eq_of rfl ?_
    apply List.map_congr_left
    intro b _
    refine congrArg (fun l => ("bucket", Val.str b) :: l) ?_
    apply List.map_congr_left
    intro mp hmp
    refine congrArg (fun v => (mp.1, v)) ?_
    refine congrArg (applyAgg mp.2) ?_
    have hk := aggMapOf_keys df mp hmp
    have h1 : mp.1 ≠ "day" := by
      rcases hk with h | h | h <;> rw [h] <;> decide
    have h2 : mp.1 ≠ "bucket" := by
      rcases hk with h | h | h <;> rw [h] <;> decide
    exact ten_day_filter_vals df b mp.1 h1 h2

/-! ## Ten-day bucketing: named pieces of the unfolded form -/

/-- The bucket label of every input row, in row order. -/
def bucketsOf (df : Table) : List String :=
  df.rows.map (fun r => bucketVal (rowGetD r "date"))

/-- The distinct bucket labels in the order the grouped path emits them:
groupby key order refined by the categorical sort. -/
def bucketKeys (df : Table) : List String :=
  sortByB bucketRankLE (sortByB strLEb (bucketsOf df).dedup)

/-- The input rows contributing to bucket `b`. -/
def contribRows (df : Table) (b : String) : List Row :=
  df.rows.filter (fun r => bucketVal (rowGetD r "date") == b)

/-- The pre-rounding output row of bucket `b`. -/
def bucketRow (df : Table) (b : String) : Row :=
  ("bucket", Val.str b) :: (aggMapOf df).map (fun mp =>
    (mp.1, applyAgg mp.2 ((contribRows df b).map (fun r => rowGetD r mp.1))))

/-- The grouped table of `ten_day_buckets` before the two `round(1)` passes. -/
def tenDayOut0 (df : Table) : Table :=
  ⟨"bucket" :: (aggMapOf df).map Prod.fst, (bucketKeys df).map (bucketRow df)⟩

/-- The label carried by a `bucket` cell. -/
def bucketStr : Val → String
  | .str s => s
  | _ => ""

theorem isEmpty_false_of_ne {α : Type} {l : List α} (h : l ≠ []) : l.isEmpty = false := by
  cases l with
  | nil => exact absurd rfl h
  | cons a t => rfl

theorem ten_day_metric (df : Table) (hd : "date" ∈ df.cols) (hne : df.rows ≠ [])
    (hmap : (aggMapOf df).isEmpty = false) :
    ten_day_buckets df = roundCol (roundCol (tenDayOut0 df) "temp") "humidity" := by
  rw [ten_day_unfold df hd hne, if_neg (by rw [hmap]; exact Bool.false_ne_true)]
  rfl

theorem ten_day_degenerate (df : Table) (hd : "date" ∈ df.cols) (hne : df.rows ≠ [])
    (hmap : (aggMapOf df).isEmpty = true) :
    ten_day_buckets df =
      ⟨["bucket"],
       (sortByB strLEb (bucketsOf df).dedup).map (fun b => [("bucket", Val.str b)])⟩ := by
  rw [ten_day_unfold df hd hne, if_pos hmap]
  rfl

theorem aggMapOf_fst (df : Table) :
    (aggMapOf df).map Prod.fst =
      ["temp", "humidity", "precip"].filter (fun c => decide (c ∈ df.cols)) := by
  unfold aggMapOf
  by_cases h1 : "temp" ∈ df.cols <;> by_cases h2 : "humidity" ∈ df.cols <;>
    by_cases h3 : "precip" ∈ df.cols <;>
      simp [h1, h2, h3, List.filter]

theorem aggMapOf_pairs (df : Table) :
    ∀ q ∈ aggMapOf df, q = ("temp", AggOp.mean) ∨ q = ("humidity", AggOp.mean) ∨
      q = ("precip", AggOp.asum) := by
  intro q hq
  unfold aggMapOf at hq
  rcases List.mem_append.mp hq with h12 | h3
  · rcases List.mem_append.mp h12 with h1 | h2
    · exact Or.inl (mem_if_singleton h1)
    · exact Or.inr (Or.inl (mem_if_singleton h2))
  · exact Or.inr (Or.inr (mem_if_singleton h3))

theorem aggMapOf_mem_temp (df : Table) (h : "temp" ∈ df.cols) :
    ("temp", AggOp.mean) ∈ aggMapOf df := by
  unfold aggMapOf
  refine List.mem_append.mpr (Or.inl (List.mem_append.mpr (Or.inl ?_)))
  rw [if_pos h]
  exact List.mem_singleton.mpr rfl

theorem aggMapOf_mem_humidity (df : Table) (h : "humidity" ∈ df.cols) :
    ("humidity", AggOp.mean) ∈ aggMapOf df := by
  unfold aggMapOf
  refine List.mem_append.mpr (Or.inl (List.mem_append.mpr (Or.inr ?_)))
  rw [if_pos h]
  exact List.mem_singleton.mpr rfl

theorem aggMapOf_mem_precip (df : Table) (h : "precip" ∈ df.cols) :
    ("precip", AggOp.asum) ∈ aggMapOf df := by
  unfold aggMapOf
  refine List.mem_append.mpr (Or.inr ?_)
  rw [if_pos h]
  exact List.mem_singleton.mpr rfl

theorem aggMapOf_uniq_temp (df : Table) :
    ∀ q ∈ aggMapOf df, q.1 = "temp" → q = ("temp", AggOp.mean) := by
  intro q hq hq1
  rcases aggMapOf_pairs df q hq with h | h | h
  · exact h
  · rw [h] at hq1
    exact absurd hq1 (by decide)
  · rw [h] at hq1
    exact absurd hq1 (by decide)

theorem aggMapOf_uniq_humidity (df : Table) :
    ∀ q ∈ aggMapOf df, q.1 = "humidity" → q = ("humidity", AggOp.mean) := by
  intro q hq hq1
  rcases aggMapOf_pairs df q hq with h | h | h
  · rw [h] at hq1
    exact absurd hq1 (by decide)
  · exact h
  · rw [h] at hq1
    exact absurd hq1 (by decide)

theorem aggMapOf_uniq_precip (df : Table) :
    ∀ q ∈ aggMapOf df, q.1 = "precip" → q = ("precip", AggOp.asum) := by
  intro q hq hq1
  rcases aggMapOf_pairs df q hq with h | h | h
  · rw [h] at hq1
    exact absurd hq1 (by decide)
  · rw [h] at hq1
    exact absurd hq1 (by decide)
  · exact h

theorem rowGetD_cons_skip (k : String) (v : Val) (l : Row) (c : String) (h : k ≠ c) :
    rowGetD ((k, v) :: l) c = rowGetD l c := by
  unfold rowGetD rowGet
  rw [List.find?_cons_of_neg _ (by simp [h])]

theorem bucketRow_getD (df : Table) (b : String) {c : String} {op : AggOp}
    (hmem : (c, op) ∈ aggMapOf df)
    (huniq : ∀ q ∈ aggMapOf df, q.1 = c → q = (c, op))
    (hcb : c ≠ "bucket") :
    rowGetD (bucketRow df b) c =
      applyAgg op ((contribRows df b).map (fun r => rowGetD r c)) := by
  unfold bucketRow
  rw [rowGetD_cons_skip "bucket" (Val.str b) _ c (Ne.symm hcb)]
  unfold rowGetD rowGet
  rw [find?_assoc_of_unique hmem huniq rfl]
  rfl

theorem roundCol_map_comp {α : Type} (t : Table) (c : String) (g : Val → α) (c2 : String)
    (hne : c2 ≠ c) :
    (roundCol t c).rows.map (fun r => g (rowGetD r c2)) =
      t.rows.map (fun r => g (rowGetD r c2)) := by
  have h1 := congrArg (List.map g) (@roundCol_map_getD_ne t c c2 hne)
  rw [List.map_map, List.map_map] at h1
  simp only [Function.comp_def] at h1
  exact h1

theorem tenDayOut0_bucketCol (df : Table) :
    (tenDayOut0 df).rows.map (fun r => bucketStr (rowGetD r "bucket")) = bucketKeys df := by
  show ((bucketKeys df).map (bucketRow df)).map (fun r => bucketStr (rowGetD r "bucket")) = _
  rw [List.map_map]
  have h : ∀ b ∈ bucketKeys df,
      ((fun r => bucketStr (rowGetD r "bucket")) ∘ bucketRow df) b = id b := fun b _ => rfl
  rw [List.map_congr_left h, List.map_id]

/-- C6: For every daily aggregate table carrying a date column, the bucket
helper maps day-of-month d to exactly one of the three labels, with no
fourth bucket possible; whenever a metric column is present, the output
columns are the bucket column followed by exactly the metric columns
present in the input in canonical order, every output row carries a bucket
label whose contributing input rows are nonempty and aggregates temp and
humidity by the NaN-skipping mean rounded to one decimal place and precip
by the NaN-skipping sum, unrounded; and every bucket with a contributing
row appears in the output. -/
theorem C6_theorem (df : Table) (hd : "date" ∈ df.cols) (hne : df.rows ≠ []) :
    (∀ d : Int,
        (d ≤ 10 → bucketOfDay d = "1–10") ∧
        (11 ≤ d → d ≤ 20 → bucketOfDay d = "11–20") ∧
        (21 ≤ d → bucketOfDay d = "21–末") ∧
        bucketOfDay d ∈ canonicalBuckets) ∧
    (aggMapOf df ≠ [] →
      (ten_day_buckets df).cols =
        "bucket" :: ["temp", "humidity", "precip"].filter (fun c => decide (c ∈ df.cols))) ∧
    (aggMapOf df ≠ [] →
      ∀ row ∈ (ten_day_buckets df).rows, ∃ b : String,
        rowGetD row "bucket" = Val.str b ∧
        contribRows df b ≠ [] ∧
        ("temp" ∈ df.cols → rowGetD row "temp" =
          round1Val (nanMean ((contribRows df b).map (fun r => rowGetD r "temp")))) ∧
        ("humidity" ∈ df.cols → rowGetD row "humidity" =
          round1Val (nanMean ((contribRows df b).map (fun r => rowGetD r "humidity")))) ∧
        ("precip" ∈ df.cols → rowGetD row "precip" =
          nanSum ((contribRows df b).map (fun r => rowGetD r "precip")))) ∧
    (aggMapOf df ≠ [] →
      ∀ r ∈ df.rows, ∃ row ∈ (ten_day_buckets df).rows,
        rowGetD row "bucket" = Val.str (bucketVal (rowGetD r "date"))) := by
  refine ⟨?_, ?_, ?_, ?_⟩
  · intro d
    refine ⟨?_, ?_, ?_, ?_⟩
    · intro h1
      unfold bucketOfDay
      rw [if_pos h1]
    · intro h11 h20
      unfold bucketOfDay
      rw [if_neg (by omega), if_pos h20]
    · intro h21
      unfold bucketOfDay
      rw [if_neg (by omega), if_neg (by omega)]
    · unfold bucketOfDay
      split
      · decide
      · split
        · decide
        · decide
  · intro hmap
    have hmapF : (aggMapOf df).isEmpty = false := isEmpty_false_of_ne hmap
    rw [ten_day_metric df hd hne hmapF, roundCol_cols, roundCol_cols]
    show "bucket" :: (aggMapOf df).map Prod.fst = _
    rw [aggMapOf_fst]
  · intro hmap row hrow
    have hmapF : (aggMapOf df).isEmpty = false := isEmpty_false_of_ne hmap
    rw [ten_day_metric df hd hne hmapF] at hrow
    obtain ⟨r1, hr1, hrowEq, hrowHum⟩ := mem_roundCol_rows_strong hrow
    obtain ⟨r0, hr0, hr1Eq, hr1Temp⟩ := mem_roundCol_rows_strong hr1
    have hr0m : r0 ∈ (bucketKeys df).map (bucketRow df) := hr0
    obtain ⟨b, hbmem, hb0⟩ := List.mem_map.mp hr0m
    have hbdedup : b ∈ (bucketsOf df).dedup := by
      have h2 := (mem_sortByB bucketRankLE (sortByB strLEb (bucketsOf df).dedup) b).mp hbmem
      exact (mem_sortByB strLEb ((bucketsOf df).dedup) b).mp h2
    obtain ⟨rc, hrc, hrcb⟩ := List.mem_map.mp (List.mem_dedup.mp hbdedup)
    have hcontrib : rc ∈ contribRows df b := by
      unfold contribRows
      rw [List.mem_filter]
      refine ⟨hrc, ?_⟩
      rw [hrcb]
      exact beq_self_eq_true b
    refine ⟨b, ?_, List.ne_nil_of_mem hcontrib, ?_, ?_, ?_⟩
    · rw [hrowEq "bucket" (by decide), hr1Eq "bucket" (by decide), ← hb0]
      rfl
    · intro ht
      have htm : ("temp", AggOp.mean) ∈ aggMapOf df := aggMapOf_mem_temp df ht
      have htcols : "temp" ∈ (tenDayOut0 df).cols := by
        show "temp" ∈ "bucket" :: (aggMapOf df).map Prod.fst
        exact List.mem_cons_of_mem _ (List.mem_map.mpr ⟨("temp", AggOp.mean), htm, rfl⟩)
      rw [hrowEq "temp" (by decide), hr1Temp htcols, ← hb0,
        bucketRow_getD df b htm (aggMapOf_uniq_temp df) (by decide)]
      rfl
    · intro hh
      have hhm : ("humidity", AggOp.mean) ∈ aggMapOf df := aggMapOf_mem_humidity df hh
      have hhcols : "humidity" ∈ (roundCol (tenDayOut0 df) "temp").cols := by
        rw [roundCol_cols]
        show "humidity" ∈ "bucket" :: (aggMapOf df).map Prod.fst
        exact List.mem_cons_of_mem _ (List.mem_map.mpr ⟨("humidity", AggOp.mean), hhm, rfl⟩)
      rw [hrowHum hhcols, hr1Eq "humidity" (by decide), ← hb0,
        bucketRow_getD df b hhm (aggMapOf_uniq_humidity df) (by decide)]
      rfl
    · intro hp
      have hpm : ("precip", AggOp.asum) ∈ aggMapOf df := aggMapOf_mem_precip df hp
      rw [hrowEq "precip" (by decide), hr1Eq "precip" (by decide), ← hb0,
        bucketRow_getD df b hpm (aggMapOf_uniq_precip df) (by decide)]
      rfl
  · intro hmap r hr
    have hmapF : (aggMapOf df).isEmpty = false := isEmpty_false_of_ne hmap
    rw [ten_day_metric df hd hne hmapF]
    have hb : bucketVal (rowGetD r "date") ∈ bucketKeys df := by
      unfold bucketKeys
      rw [mem_sortByB, mem_sortByB]
      exact List.mem_dedup.mpr (List.mem_map.mpr ⟨r, hr, rfl⟩)
    have h0 : bucketRow df (bucketVal (rowGetD r "date")) ∈ (tenDayOut0 df).rows :=
      List.mem_map.mpr ⟨_, hb, rfl⟩
    obtain ⟨r1, hr1, hr1eq⟩ :=
      @roundCol_rows_surj (tenDayOut0 df) "temp" (bucketRow df (bucketVal (rowGetD r "date"))) h0
    obtain ⟨row, hrow, hroweq⟩ :=
      @roundCol_rows_surj (roundCol (tenDayOut0 df) "temp") "humidity" r1 hr1
    refine ⟨row, hrow, ?_⟩
    rw [hroweq "bucket" (by decide), hr1eq "bucket" (by decide)]
    rfl

def c6Table : Table :=
  ⟨["date", "temp", "precip"],
   [[("date", Val.vdate ⟨2025, 6, 5⟩), ("temp", Val.num 10), ("precip", Val.num 1)],
    [("date", Val.vdate ⟨2025, 6, 25⟩), ("temp", Val.num 21), ("precip", Val.num 2)]]⟩

theorem C6_witness :
    ("date" ∈ c6Table.cols ∧ c6Table.rows ≠ [] ∧ aggMapOf c6Table ≠ []) ∧
    (ten_day_buckets c6Table).cols = ["bucket", "temp", "precip"] := by
  have h := C6_theorem c6Table (by decide) (by decide)
  refine ⟨⟨by decide, by decide, by decide⟩, ?_⟩
  rw [h.2.1 (by decide)]
  decide

def c7Table : Table :=
  ⟨["date"],
   [[("date", Val.vdate ⟨2025, 6, 15⟩)],
    [("date", Val.vdate ⟨2025, 6, 5⟩)]]⟩

/-- C7: counterexample to the claim that the degenerate path also emits
canonical bucket order. On a metric-free table holding a mid-month and an
early-month date, the fallback `sort_values("bucket")` compares plain
strings, and the en-dash code point makes "11–20" sort before "1–10": the
output rows are in the order "11–20", "1–10", which is not the canonical
order. -/
theorem C7_counterexample :
    ten_day_buckets c7Table =
      ⟨["bucket"], [[("bucket", Val.str "11–20")], [("bucket", Val.str "1–10")]]⟩ ∧
    chainLEb bucketRankLE ((ten_day_buckets c7Table).rows.map
      (fun r => bucketStr (rowGetD r "bucket"))) = false :=
  ⟨by decide, by decide⟩

/-- C7 (amended): when at least one metric column is present, the grouped
path reindexes by the categorical dtype, so the output bucket labels are
chained under the canonical rank order; in the degenerate metric-free
case the output is the deduplicated bucket list sorted by raw code-point
string order, which is what `sort_values` on an ordinary object column
does, and which differs from the canonical order in general. -/
theorem C7_theorem (df : Table) (hd : "date" ∈ df.cols) (hne : df.rows ≠ []) :
    (aggMapOf df ≠ [] →
      chainLEb bucketRankLE ((ten_day_buckets df).rows.map
        (fun r => bucketStr (rowGetD r "bucket"))) = true) ∧
    (aggMapOf df = [] →
      (ten_day_buckets df).rows.map (fun r => bucketStr (rowGetD r "bucket")) =
        sortByB strLEb (bucketsOf df).dedup ∧
      chainLEb strLEb ((ten_day_buckets df).rows.map
        (fun r => bucketStr (rowGetD r "bucket"))) = true) := by
  constructor
  · intro hmap
    have hmapF : (aggMapOf df).isEmpty = false := isEmpty_false_of_ne hmap
    rw [ten_day_metric df hd hne hmapF]
    rw [roundCol_map_comp (roundCol (tenDayOut0 df) "temp") "humidity" bucketStr "bucket"
      (by decide)]
    rw [roundCol_map_comp (tenDayOut0 df) "temp" bucketStr "bucket" (by decide)]
    rw [tenDayOut0_bucketCol df]
    exact chainLEb_sortByB bucketRankLE bucketRankLE_total _
  · intro hmap
    have hmapT : (aggMapOf df).isEmpty = true := by
      rw [hmap]
      rfl
    rw [ten_day_degenerate df hd hne hmapT]
    have hcol : (List.map (fun b => [("bucket", Val.str b)])
        (sortByB strLEb (bucketsOf df).dedup)).map
          (fun r => bucketStr (rowGetD r "bucket")) =
        sortByB strLEb (bucketsOf df).dedup := by
      rw [List.map_map]
      have h : ∀ b ∈ sortByB strLEb (bucketsOf df).dedup,
          ((fun r => bucketStr (rowGetD r "bucket")) ∘ (fun b => [("bucket", Val.str b)])) b =
            id b := fun b _ => rfl
      rw [List.map_congr_left h, List.map_id]
    refine ⟨hcol, ?_⟩
    rw [hcol]
    exact chainLEb_sortByB strLEb strLEb_total _

def c7MetricTable : Table :=
  ⟨["date", "precip"],
   [[("date", Val.vdate ⟨2025, 6, 15⟩), ("precip", Val.num 1)],
    [("date", Val.vdate ⟨2025, 6, 5⟩), ("precip", Val.num 2)]]⟩

theorem C7_witness :
    ("date" ∈ c7MetricTable.cols ∧ c7MetricTable.rows ≠ [] ∧ aggMapOf c7MetricTable ≠ []) ∧
    chainLEb bucketRankLE ((ten_day_buckets c7MetricTable).rows.map
      (fun r => bucketStr (rowGetD r "bucket"))) = true :=
  ⟨⟨by decide, by decide, by decide⟩,
   (C7_theorem c7MetricTable (by decide) (by decide)).1 (by decide)⟩
